import Mathlib

/-!
Verification development for the 3D-tile statistics generator
(`examine_3d-tile.py`).  The Python source is shallowly embedded below:

* Python floats are modelled as exact rationals (`ℚ`); the claims under
  study concern control flow, counting and exact formulas, not rounding.
* Python exceptions are modelled with `Except PyErr`; each `PyErr`
  constructor names the Python exception class the code would raise.
* Python list indexing (`grid[v][u]`, including negative-index
  wrap-around) is modelled by `pyGet` / `pySet`.
* `int(x)` on a float is truncation toward zero, modelled by `pytrunc`.
* External collaborators (Blender's mesh engine, the filesystem) enter as
  data: a face carries the surface area `face.calc_area()` would return
  and the UV loop coordinates; a mesh carries the edge lengths
  `edge.calc_length()` would return; the filesystem is a pair of functions
  giving the parsed root of each tileset document and the `os.walk`
  listing used by the implicit-tiling scan.
* The texel size computed by the source is `radicand ** 0.5`; the final
  square root is irrational in general, so the embedding carries the
  radicand (the squared texel size) through `texel_sizes`; every statement
  about which entries are appended and their values is made on the
  radicand, which determines the texel size uniquely (square root is
  injective on nonnegative values).
-/

/-- Python exception classes that the embedded code can raise. -/
inductive PyErr : Type where
  | valueError
  | indexError
  | zeroDivision
  | typeError
  | nameError
  | stackOverflow
  | missingDoc
deriving DecidableEq, Repr

/-- Normalize a Python list index: a negative index `i` addresses `n + i`;
an index out of `[-n, n)` is invalid (raises `IndexError`). -/
def normIdx (n : Nat) (i : Int) : Option Nat :=
  if 0 ≤ i then (if i < (n : Int) then some i.toNat else none)
  else (if -(n : Int) ≤ i then some ((n : Int) + i).toNat else none)

/-- Python `l[i]` (read). -/
def pyGet {α : Type} (l : List α) (i : Int) : Option α :=
  (normIdx l.length i).bind (fun j => l.get? j)

/-- Python `l[i] = a` (write); the caller has always validated the index
with a preceding `pyGet` on the same list, so the invalid case is a no-op. -/
def pySet {α : Type} (l : List α) (i : Int) (a : α) : List α :=
  match normIdx l.length i with
  | some j => l.set j a
  | none => l

/-- Python `int(q)` for `q` a float: truncation toward zero. -/
def pytrunc (q : ℚ) : Int :=
  if q < 0 then -(Int.ofNat ((-q).num.toNat / (-q).den))
  else Int.ofNat (q.num.toNat / q.den)

/-- Python `range(lo, hi)` over integers. -/
def intRange (lo hi : Int) : List Int :=
  (List.range (hi - lo).toNat).map (fun k => lo + (k : Int))

/-- The `sign` helper inside `point_in_triangle_uv` (line 53 of the
source): the 2D cross-product test
`(p1.x - p3.x) * (p2.y - p3.y) - (p2.x - p3.x) * (p1.y - p3.y)`. -/
def sign (p1 p2 p3 : ℚ × ℚ) : ℚ :=
  (p1.1 - p3.1) * (p2.2 - p3.2) - (p2.1 - p3.1) * (p1.2 - p3.2)

/-- `point_in_triangle_uv(p, triangle)` (source lines 52-63).  The source
indexes `triangle[0]`, `triangle[1]`, `triangle[2]`; a loop with fewer
than three UV coordinates raises `IndexError`, and coordinates past the
first three are ignored (the source's triangle-only approximation). -/
def point_in_triangle_uv (p : ℚ × ℚ) (triangle : List (ℚ × ℚ)) :
    Except PyErr Bool :=
  match pyGet triangle 0, pyGet triangle 1, pyGet triangle 2 with
  | some t0, some t1, some t2 =>
    let d1 := sign p t0 t1
    let d2 := sign p t1 t2
    let d3 := sign p t2 t0
    let hasNeg : Bool := decide (d1 < 0) || decide (d2 < 0) || decide (d3 < 0)
    let hasPos : Bool := decide (d1 > 0) || decide (d2 > 0) || decide (d3 > 0)
    .ok (!(hasNeg && hasPos))
  | _, _, _ => .error .indexError

/-- One face of the abstract mesh: the surface area that
`face.calc_area()` returns (computed by the external mesh engine from the
3D positions) and the UV coordinates of its loops in order. -/
structure Face where
  area : ℚ
  uvs : List (ℚ × ℚ)
deriving DecidableEq, Repr

/-- The abstract mesh that the Blender mesh loader hands to the
statistics code: whether `bm.loops.layers.uv.active` is set, the pixel
dimensions of the image bound through the active material's node tree
(`none` when no `TEX_IMAGE` node with an image exists), the faces, and
the edge lengths that `edge.calc_length()` returns for `bm.edges`. -/
structure Mesh where
  uvLayer : Bool
  image : Option (Nat × Nat)
  faces : List Face
  edges : List ℚ
deriving DecidableEq, Repr

/-- The occupancy grid: `grid_resolution` rows of `grid_resolution`
cells, each `0` or `1`, exactly the list-of-lists the source builds. -/
abbrev Grid := List (List Nat)

/-- Sum of all grid entries: `sum(sum(row) for row in grid)` (line 123). -/
def gridSum (g : Grid) : Nat := (g.map List.sum).sum

/-- Number of cells holding a nonzero entry — the "distinct occupied
cells" of the specification. -/
def occupiedCount (g : Grid) : Nat :=
  (g.map (fun row => row.countP (fun x => decide (x ≠ 0)))).sum

/-- `grid_resolution = int(max(image_width, image_height) * fraction)`
with `fraction = 0.5` (source lines 91-92). -/
def gridRes (w h : Nat) : Nat :=
  (pytrunc ((max w h : ℚ) * (1 / 2))).toNat

/-- `[[0 for _ in range(R)] for _ in range(R)]` (line 94). -/
def initGrid (r : Nat) : Grid := List.replicate r (List.replicate r 0)

/-- Python `grid[v][u]` (read). -/
def pyGet2 (g : Grid) (v u : Int) : Option Nat :=
  (pyGet g v).bind (fun row => pyGet row u)

/-- Python `grid[v][u] = x`. -/
def pySet2 (g : Grid) (v u : Int) (x : Nat) : Grid :=
  match normIdx g.length v with
  | some j =>
    match g.get? j with
    | some row => g.set j (pySet row u x)
    | none => g
  | none => g

/-- The body of the innermost sampling loop (source lines 112-116): test
the cell's sample point against the face's UV triangle; if inside and the
cell is still unoccupied, mark it and count it for this face. -/
def visitCell (r : Nat) (uvs : List (ℚ × ℚ)) (u v : Int)
    (st : Grid × Nat) : Except PyErr (Grid × Nat) := do
  let b ← point_in_triangle_uv ((u : ℚ) / (r : ℚ), (v : ℚ) / (r : ℚ)) uvs
  if b then
    match pyGet2 st.1 v u with
    | none => .error .indexError
    | some cur =>
      if cur = 0 then .ok (pySet2 st.1 v u 1, st.2 + 1) else .ok st
  else .ok st

/-- One iteration of `for face in bm.faces` (source lines 98-121): UV
bounding box, the two nested `range` loops over grid cells, and the
texel-size append when at least one cell was covered.  The appended value
is the radicand of line 120; the source takes its square root. -/
def process_face (r w h : Nat) (st : Grid × List ℚ) (f : Face) :
    Except PyErr (Grid × List ℚ) :=
  match f.uvs with
  | [] => .error .valueError
  | uv0 :: rest => do
    let minU := (rest.map Prod.fst).foldl min uv0.1
    let maxU := (rest.map Prod.fst).foldl max uv0.1
    let minV := (rest.map Prod.snd).foldl min uv0.2
    let maxV := (rest.map Prod.snd).foldl max uv0.2
    let uList := intRange (pytrunc (minU * r)) (min (pytrunc (maxU * r) + 1) (r : Int))
    let vList := intRange (pytrunc (minV * r)) (min (pytrunc (maxV * r) + 1) (r : Int))
    let res ← uList.foldlM
      (fun st1 u => vList.foldlM (fun st2 v => visitCell r f.uvs u v st2) st1)
      (st.1, 0)
    if res.2 > 0 then
      .ok (res.1, st.2 ++ [f.area / ((res.2 : ℚ) * ((w : ℚ) / (r : ℚ)) * ((h : ℚ) / (r : ℚ)))])
    else
      .ok (res.1, st.2)

/-- The whole `for face in bm.faces` loop threading the shared grid and
the `texel_sizes` list. -/
def texel_faces_fold (r w h : Nat) (faces : List Face) (st : Grid × List ℚ) :
    Except PyErr (Grid × List ℚ) :=
  faces.foldlM (process_face r w h) st

/-- The value `calculate_texel_sizes_and_utilization` returns: the source
returns a 2-tuple `[], 0` on the no-UV-layer and no-texture early exits
(lines 74 and 86) but a 3-tuple on the normal path (line 127).  The
distinction is observable at the unpacking call site, so it is kept. -/
inductive TexelReturn : Type where
  | pair (sizes : List ℚ) (util : ℚ)
  | triple (sizes : List ℚ) (util : ℚ) (width : Nat)
deriving DecidableEq, Repr

/-- `calculate_texel_sizes_and_utilization(obj)` (source lines 65-127).
`sizes` entries are squared texel sizes (see the file comment). -/
def calculate_texel_sizes_and_utilization (m : Mesh) :
    Except PyErr TexelReturn :=
  if m.uvLayer = false then .ok (.pair [] 0)
  else
    match m.image with
    | none => .ok (.pair [] 0)
    | some wh => do
      let w := wh.1
      let h := wh.2
      let r := gridRes w h
      let totalPixels := r * r
      let res ← texel_faces_fold r w h m.faces (initGrid r, [])
      let usedPixels := gridSum res.1
      if totalPixels = 0 then .error .zeroDivision
      else .ok (.triple res.2 ((usedPixels : ℚ) / (totalPixels : ℚ)) w)

/-- The statistics record built at source lines 159-169.  The texel and
edge moment fields (numpy mean / median / population standard deviation)
are pure arithmetic on the two lists kept here, so the record keeps the
lists; no claim under study concerns the derived moments. -/
structure TileStatsRaw where
  texel_size_sqs : List ℚ
  texture_utilization : ℚ
  texture_width : Nat
  edge_lengths : List ℚ
  total_polygons : Nat
deriving DecidableEq, Repr

/-- `calculate_statistics(obj)` (source lines 129-169).  Line 133 unpacks
the call's result into three variables: a 2-tuple return makes that
statement raise `ValueError: not enough values to unpack`; otherwise an
empty `sizes` list returns `None` (line 136-137). -/
def calculate_statistics (m : Mesh) : Except PyErr (Option TileStatsRaw) := do
  let ret ← calculate_texel_sizes_and_utilization m
  match ret with
  | .pair _ _ => .error .valueError
  | .triple sizes util w =>
    if sizes.isEmpty then .ok none
    else .ok (some ⟨sizes, util, w, m.edges, m.faces.length⟩)

/-- String containment test (Python `pat in s`) over the character list. -/
def strContains (s pat : String) : Bool :=
  s.data.tails.any (fun t => pat.data.isPrefixOf t)

/-- Python `s.endswith(suf)`. -/
def strEndsWith (s suf : String) : Bool :=
  suf.data.isSuffixOf s.data

/-- The final path component (the `file` variable of the `os.walk` loop:
everything after the last slash of the relative path). -/
def file_basename (p : String) : String :=
  String.mk ((p.data.reverse.takeWhile (fun c => !(c = '/'))).reverse)

/-- POSIX `os.path.join(b, s)` for the shapes the source produces. -/
def path_join (b s : String) : String :=
  if s.data.head? = some '/' then s
  else if b = "" then s
  else if b.data.getLast? = some '/' then b ++ s
  else b ++ "/" ++ s

/-- POSIX `os.path.dirname`. -/
def path_dirname (p : String) : String :=
  let pre := (p.data.reverse.dropWhile (fun c => !(c = '/'))).reverse
  if pre.all (fun c => c = '/') then String.mk pre
  else String.mk ((pre.reverse.dropWhile (fun c => c = '/')).reverse)

/-- Decimal digit run to a natural number (Python `int` on the matched
group). -/
def digitsToNat (ds : List Char) : Nat :=
  ds.foldl (fun a c => 10 * a + (c.toNat - 48)) 0

/-- Consume a maximal nonempty digit run (the regex `(\d+)`; the next
pattern character is never a digit, so greedy maximal munch coincides
with the regex's backtracking semantics). -/
def takeDigits (cs : List Char) : Option (Nat × List Char) :=
  let ds := cs.takeWhile Char.isDigit
  if ds.isEmpty then none else some (digitsToNat ds, cs.drop ds.length)

/-- Consume a literal. -/
def dropLit (lit cs : List Char) : Option (List Char) :=
  if lit.isPrefixOf cs then some (cs.drop lit.length) else none

/-- Python `re.compile(r'tiles/(\d+)/(\d+)/(\d+)/(\d+)\.glb').match(s)`:
`re.match` anchors at the start only, so this accepts any string whose
PREFIX fits the pattern, returning the four parsed integers. -/
def match_tiles_pat (s : String) : Option (Nat × Nat × Nat × Nat) := do
  let r0 ← dropLit "tiles/".data s.data
  let (l, r1) ← takeDigits r0
  let r2 ← dropLit ['/'] r1
  let (x, r3) ← takeDigits r2
  let r4 ← dropLit ['/'] r3
  let (y, r5) ← takeDigits r4
  let r6 ← dropLit ['/'] r5
  let (z, r7) ← takeDigits r6
  let _ ← dropLit ".glb".data r7
  some (l, x, y, z)

/-- The specification's reading of the path convention: the WHOLE
relative path matches `tiles/{level}/{x}/{y}/{z}.glb`.  Kept separately
from `match_tiles_pat` (the code's prefix-anchored `re.match`) so that
the two can be compared. -/
def spec_full_match (s : String) : Option (Nat × Nat × Nat × Nat) := do
  let r0 ← dropLit "tiles/".data s.data
  let (l, r1) ← takeDigits r0
  let r2 ← dropLit ['/'] r1
  let (x, r3) ← takeDigits r2
  let r4 ← dropLit ['/'] r3
  let (y, r5) ← takeDigits r4
  let r6 ← dropLit ['/'] r5
  let (z, r7) ← takeDigits r6
  let r8 ← dropLit ".glb".data r7
  if r8.isEmpty then some (l, x, y, z) else none

/-- The `content` object of a tileset node (`content.uri` / `content.url`). -/
structure Content where
  uri : Option String
  url : Option String
deriving DecidableEq, Repr

/-- A parsed tileset node: optional `content`, optional `geometricError`,
and the `children` list (an absent `children` key behaves exactly like an
empty list, so both are represented by `[]`). -/
inductive TileJson : Type where
  | node (content : Option Content) (geometricError : Option ℚ) (children : List TileJson)

/-- One entry of `tiles_to_process` (source lines 238-248 and 261-268).
`grid_coords` collects the `x`/`y`/`z` keys together with the level, and
is `none` for explicit (non-implicit-tiling) tiles. -/
structure TileDesc where
  lod_level : Nat
  tile_id : Nat
  parent_id : Option Nat
  tile_url : String
  screen_space_error : Option ℚ
  base_path : String
  grid_coords : Option (Nat × Nat × Nat × Nat)
deriving DecidableEq, Repr

/-- Traversal state: the global `tile_id_counter` and the accumulating
`tiles_to_process` list. -/
structure TravState where
  counter : Nat
  tiles : List TileDesc
deriving DecidableEq, Repr

/-- The filesystem as the traversal sees it: `docs p` is the parsed root
node of the tileset document at path `p` (`json.load` composed with
`.get('root', {})`; `none` when `open(p)` would fail), and `walkFiles b`
is the list of paths, relative to `b`, of all files below `b/tiles`
(`os.walk` composed with `os.path.relpath(·, b)`). -/
structure FS where
  docs : String → Option TileJson
  walkFiles : String → List String

/-- `get_unique_tile_id()` (source lines 199-202) acting on the global
counter: returns the incremented counter and the fresh id (both
`counter + 1`). -/
def get_unique_tile_id (c : Nat) : Nat × Nat := (c + 1, c + 1)

/-- One iteration of the implicit-tiling file scan (source lines
230-248), threading the traversal state and the loop-local `tile_id`
variable (which the last matching file leaves bound). -/
def process_grid_file (parentId : Option Nat) (sse : Option ℚ) (basePath : String)
    (st : TravState × Option Nat) (rel : String) : TravState × Option Nat :=
  if strEndsWith (file_basename rel) ".glb" then
    match match_tiles_pat rel with
    | some lxyz =>
      let tid := get_unique_tile_id st.1.counter
      (⟨tid.1, st.1.tiles ++ [⟨lxyz.1, tid.2, parentId, rel, sse, basePath, some lxyz⟩]⟩,
        some tid.2)
    | none => st
  else st

/-- Python `a or b` on two optional strings (an empty string is falsy). -/
def py_or_str (a b : Option String) : Option String :=
  match a with
  | some s => if s = "" then b else some s
  | none => b

/-- `process_tile_structure(tile, parent_id, lod_level, tiles_to_process,
base_path)` (source lines 219-272).  The `fuel` argument bounds the
nesting depth (the source recurses without cycle protection; exhausting
`fuel` models exhausting the call stack).  The local Python variable
`tile_id` is modelled by an `Option Nat` that starts out unbound
(`none`): the children loop at line 272 passes `tile_id` as the new
parent id, which raises `NameError` (`UnboundLocalError`) whenever no
branch of this invocation assigned it. -/
def process_tile_structure (fs : FS) :
    Nat → TileJson → Option Nat → Nat → String → TravState → Except PyErr TravState
  | 0, _, _, _, _, _ => .error .stackOverflow
  | fuel + 1, .node content gerr children, parentId, lod, basePath, st => do
    let uriT := content.bind Content.uri
    let isImplicit : Bool :=
      match uriT with
      | some s => (!(s = "")) && strContains s "\x7blevel\x7d"
      | none => false
    let branch : TravState × Option Nat ←
      if isImplicit then
        .ok ((fs.walkFiles basePath).foldl (process_grid_file parentId gerr basePath) (st, none))
      else
        match py_or_str (content.bind Content.uri) (content.bind Content.url) with
        | none => .ok (st, none)
        | some url =>
          if url = "" then .ok (st, none)
          else if strEndsWith url ".json" then
            let nested := path_join basePath url
            match fs.docs nested with
            | none => .error .missingDoc
            | some root => do
              let st2 ← process_tile_structure fs fuel root parentId lod (path_dirname nested) st
              .ok (st2, none)
          else if strEndsWith url ".glb" then
            let tid := get_unique_tile_id st.counter
            .ok (⟨tid.1, st.tiles ++ [⟨lod, tid.2, parentId, url, gerr, basePath, none⟩]⟩,
              some tid.2)
          else .ok (st, none)
    children.foldlM
      (fun stc child =>
        match branch.2 with
        | none => (.error .nameError : Except PyErr TravState)
        | some t => process_tile_structure fs fuel child (some t) (lod + 1) basePath stc)
      branch.1

/-- The key relation of `tiles_to_process.sort(key=lambda x: x['lod_level'])`. -/
def lodLE (a b : TileDesc) : Prop := a.lod_level ≤ b.lod_level

instance : DecidableRel lodLE := fun a b => Nat.decLe a.lod_level b.lod_level

instance : IsTotal TileDesc lodLE := ⟨fun a b => Nat.le_total a.lod_level b.lod_level⟩

instance : IsTrans TileDesc lodLE := ⟨fun _ _ _ h1 h2 => Nat.le_trans h1 h2⟩

/-- Python's `list.sort` is a stable sort; a stable sort by a fixed key
is extensionally unique, so it is embedded as insertion sort, which is
stable for `lodLE`. -/
def sort_by_lod (l : List TileDesc) : List TileDesc := List.insertionSort lodLE l

/-- `load_tileset(tileset_path)` (source lines 204-217): read the
document's root, run the recursive traversal with `parent_id = None` and
`lod_level = 0` from an initially empty list, then sort by LOD level.
`c0` is the value of the process-global `tile_id_counter` at entry
(0 at process start). -/
def load_tileset (fs : FS) (fuel : Nat) (c0 : Nat) (tilesetPath : String) :
    Except PyErr (List TileDesc) := do
  match fs.docs tilesetPath with
  | none => .error .missingDoc
  | some root => do
    let st ← process_tile_structure fs fuel root none 0 (path_dirname tilesetPath) ⟨c0, []⟩
    .ok (sort_by_lod st.tiles)

/-- One per-tile result as assembled by `process_tile_parallel` (source
lines 319-327): descriptor metadata merged with the fields of the
statistics record.  Field types follow the Python values: `parent_id` is
an integer or `None`, `screen_space_error` a float or `None`, `tile_uri`
a string, and the statistics fields are numbers. -/
structure TileResult where
  lod_level : Nat
  tile_id : Nat
  parent_id : Option Nat
  tile_uri : String
  screen_space_error : Option ℚ
  avg_texel_size : ℚ
  median_texel_size : ℚ
  std_dev_texel_size : ℚ
  texture_utilization : ℚ
  texture_width : Nat
  avg_polygon_edge_length : ℚ
  median_polygon_edge_length : ℚ
  std_dev_polygon_edge_length : ℚ
  total_polygons : Nat
deriving DecidableEq, Repr

/-- One summary row (the `avg_result` dictionary of source lines
286-292).  The group's tile count is stored in the `tile_id` column
(line 286), here named `tile_count`; `tile_uri` is a string and is never
copied into a summary row; `parent_id` / `screen_space_error` appear only
when the group's first result carries a number there. -/
structure SummaryRow where
  lod_level : Nat
  tile_count : Nat
  parent_id : Option ℚ
  screen_space_error : Option ℚ
  avg_texel_size : ℚ
  median_texel_size : ℚ
  std_dev_texel_size : ℚ
  texture_utilization : ℚ
  texture_width : ℚ
  avg_polygon_edge_length : ℚ
  median_polygon_edge_length : ℚ
  std_dev_polygon_edge_length : ℚ
  total_polygons : Nat
deriving DecidableEq, Repr

/-- Mean of a list of rationals over a given group size:
`sum(r[key] for r in group) / len(group)`. -/
def listMean (l : List ℚ) (n : Nat) : ℚ := l.sum / (n : ℚ)

/-- `sum(...) / len(group)` for an optional numeric column, keyed on the
FIRST group member as the source's `isinstance(group[0][key], (int, float))`
test is: if the first value is `None` the column is skipped; if it is a
number, Python sums the whole column and `int + None` raises `TypeError`
when a later member is missing the value. -/
def optColMean (first : Option Nat) (col : List (Option Nat)) (n : Nat) :
    Except PyErr (Option ℚ) :=
  match first with
  | none => .ok none
  | some _ =>
    match col.mapM id with
    | none => .error .typeError
    | some vals => .ok (some (((vals.sum : Nat) : ℚ) / (n : ℚ)))

/-- Same as `optColMean` for a float column. -/
def optColMeanRat (first : Option ℚ) (col : List (Option ℚ)) (n : Nat) :
    Except PyErr (Option ℚ) :=
  match first with
  | none => .ok none
  | some _ =>
    match col.mapM id with
    | none => .error .typeError
    | some vals => .ok (some (vals.sum / (n : ℚ)))

/-- Build the summary row of one LOD group (the body of the
`for lod, group in sorted(lod_groups.items())` loop, source lines
286-292): `tile_id` column := group size, `total_polygons` := sum, every
other numeric column := arithmetic mean.  `group[0]` on an empty group
would raise `IndexError` (unreachable: groups collect at least the result
that created them). -/
def agg_row (lod : Nat) (group : List TileResult) : Except PyErr SummaryRow :=
  match group with
  | [] => .error .indexError
  | g0 :: rest => do
    let g := g0 :: rest
    let n := g.length
    let pid ← optColMean g0.parent_id (g.map TileResult.parent_id) n
    let sse ← optColMeanRat g0.screen_space_error (g.map TileResult.screen_space_error) n
    .ok ⟨lod, n, pid, sse,
      listMean (g.map TileResult.avg_texel_size) n,
      listMean (g.map TileResult.median_texel_size) n,
      listMean (g.map TileResult.std_dev_texel_size) n,
      listMean (g.map TileResult.texture_utilization) n,
      (((g.map TileResult.texture_width).sum : Nat) : ℚ) / (n : ℚ),
      listMean (g.map TileResult.avg_polygon_edge_length) n,
      listMean (g.map TileResult.median_polygon_edge_length) n,
      listMean (g.map TileResult.std_dev_polygon_edge_length) n,
      (g.map TileResult.total_polygons).sum⟩

/-- The LOD keys in the order the summary loop visits them:
`sorted(lod_groups.items())` iterates the distinct `lod_level` values in
ascending order. -/
def lod_keys (results : List TileResult) : List Nat :=
  List.insertionSort (fun a b => a ≤ b) (results.map TileResult.lod_level).dedup

/-- The whole summary block (source lines 275-292): group the results by
`lod_level` (dictionary insertion order preserves input order inside each
group, i.e. each group is a filter of the input) and build one row per
LOD in ascending order. -/
def build_summary (results : List TileResult) : Except PyErr (List SummaryRow) :=
  (lod_keys results).mapM
    (fun lod => agg_row lod (results.filter (fun r => r.lod_level == lod)))

/-- The rows written to the report, in order: the summary block, three
blank rows, then the raw per-tile block (CSV string formatting is
external serialization and is not modelled). -/
structure Report where
  summary : List SummaryRow
  raw : List TileResult
deriving DecidableEq, Repr

/-- `write_results_to_csv(results, output_file)` (source lines 274-313):
the summary is computed first; then `keys = results[0].keys()` (line 295)
raises `IndexError` on an empty result list before anything is written. -/
def write_results_to_csv (results : List TileResult) : Except PyErr Report := do
  let summary ← build_summary results
  match results with
  | [] => .error .indexError
  | _ => .ok ⟨summary, results⟩

/-- Decidable equality for `Except`, for evaluating concrete runs. -/
def instExceptDecEq {e a : Type} [DecidableEq e] [DecidableEq a] : DecidableEq (Except e a)
  | .error x, .error y =>
    if h : x = y then isTrue (by rw [h]) else isFalse (fun hh => h (Except.error.inj hh))
  | .error _, .ok _ => isFalse (fun hh => Except.noConfusion hh)
  | .ok _, .error _ => isFalse (fun hh => Except.noConfusion hh)
  | .ok x, .ok y =>
    if h : x = y then isTrue (by rw [h]) else isFalse (fun hh => h (Except.ok.inj hh))

attribute [instance] instExceptDecEq

/-- Well-formedness of the occupancy grid: square of side `r` with every
entry `0` or `1`. -/
def GridWF (r : Nat) (g : Grid) : Prop :=
  g.length = r ∧ (∀ row ∈ g, row.length = r) ∧ ∀ row ∈ g, ∀ x ∈ row, x ≤ 1

instance (r : Nat) (g : Grid) : Decidable (GridWF r g) := by
  unfold GridWF; infer_instance

/-- The traversal invariant behind unique tile ids: the accumulated
descriptors carry strictly increasing `tile_id`s, all bounded by the
current counter. -/
def TravInv (st : TravState) : Prop :=
  st.tiles.Pairwise (fun a b => a.tile_id < b.tile_id)
    ∧ ∀ d ∈ st.tiles, d.tile_id ≤ st.counter

/-- The specification's description of one LOD summary row over the group
of results at `lod` (compared against the code's `agg_row`): tile count =
group size, `total_polygons` = the sum over the group, every other
numeric field = the arithmetic mean over the group. -/
def spec_summary_row (results : List TileResult) (lod : Nat) : SummaryRow :=
  let g := results.filter (fun r => r.lod_level == lod)
  let n := g.length
  ⟨lod, n,
    some ((((g.map TileResult.parent_id).reduceOption.sum : Nat) : ℚ) / (n : ℚ)),
    some ((g.map TileResult.screen_space_error).reduceOption.sum / (n : ℚ)),
    listMean (g.map TileResult.avg_texel_size) n,
    listMean (g.map TileResult.median_texel_size) n,
    listMean (g.map TileResult.std_dev_texel_size) n,
    listMean (g.map TileResult.texture_utilization) n,
    (((g.map TileResult.texture_width).sum : Nat) : ℚ) / (n : ℚ),
    listMean (g.map TileResult.avg_polygon_edge_length) n,
    listMean (g.map TileResult.median_polygon_edge_length) n,
    listMean (g.map TileResult.std_dev_polygon_edge_length) n,
    (g.map TileResult.total_polygons).sum⟩

theorem pytrunc_eq_floor (q : ℚ) (h : 0 ≤ q) : pytrunc q = ⌊q⌋ := by
  unfold pytrunc
  rw [if_neg (not_lt.mpr h)]
  rw [Rat.floor_def]
  have hnum : 0 ≤ q.num := Rat.num_nonneg.mpr h
  rw [← Int.toNat_of_nonneg hnum, ← Int.natCast_div]
  rfl

theorem pytrunc_zero : pytrunc 0 = 0 := by
  rw [pytrunc_eq_floor 0 le_rfl]; exact Int.floor_zero

theorem gridRes_eq (w h : Nat) : gridRes w h = max w h / 2 := by
  unfold gridRes
  have h1 : ((max w h : ℚ) * (1 / 2)) = ((max w h : ℤ) : ℚ) / ((2 : ℕ) : ℚ) := by
    push_cast; ring
  rw [h1, pytrunc_eq_floor _ (by positivity), Rat.floor_intCast_div_natCast]
  have h2 : ((max w h : ℤ) / ((2 : ℕ) : ℤ)) = ((max w h / 2 : ℕ) : ℤ) := by
    rw [Int.natCast_div]; norm_num
  rw [h2, Int.toNat_ofNat]

theorem intRange_eq_nil {lo hi : Int} (h : hi ≤ lo) : intRange lo hi = [] := by
  unfold intRange
  have : (hi - lo).toNat = 0 := by omega
  rw [this]; rfl

theorem intRange_single (a : Int) : intRange a (a + 1) = [a] := by
  unfold intRange
  have : (a + 1 - a).toNat = 1 := by omega
  rw [this]
  simp [List.range_succ]

theorem gridSum_cons (r : List Nat) (t : Grid) : gridSum (r :: t) = r.sum + gridSum t := by
  simp [gridSum]

theorem sum_set_nat (l : List Nat) (j : Nat) (cur x : Nat) (h : l.get? j = some cur) :
    (l.set j x).sum + cur = l.sum + x := by
  induction l generalizing j with
  | nil => simp at h
  | cons a t ih =>
    cases j with
    | zero => simp at h; subst h; simp [List.set]; omega
    | succ j =>
      simp [List.set, List.sum_cons]
      have := ih j (by simpa using h)
      omega

theorem gridSum_set (g : Grid) (j : Nat) (row row' : List Nat) (h : g.get? j = some row) :
    gridSum (g.set j row') + row.sum = gridSum g + row'.sum := by
  induction g generalizing j with
  | nil => simp at h
  | cons r t ih =>
    cases j with
    | zero => simp at h; subst h; simp [List.set, gridSum_cons]; omega
    | succ j =>
      simp only [List.set, gridSum_cons]
      have := ih j (by simpa using h)
      omega

theorem normIdx_of_bounds {n : Nat} {i : Int} (h0 : 0 ≤ i) (h1 : i < (n : Int)) :
    normIdx n i = some i.toNat := by
  unfold normIdx
  rw [if_pos h0, if_pos h1]

theorem pyGet_some {α : Type} {l : List α} {i : Int} {a : α} (h : pyGet l i = some a) :
    ∃ j, normIdx l.length i = some j ∧ l.get? j = some a := by
  unfold pyGet at h
  cases hn : normIdx l.length i with
  | none => rw [hn] at h; simp at h
  | some j => rw [hn] at h; exact ⟨j, rfl, h⟩

theorem pySet_eq {α : Type} {l : List α} {i : Int} {j : Nat} (a : α)
    (h : normIdx l.length i = some j) : pySet l i a = l.set j a := by
  unfold pySet
  rw [h]

theorem pySet2_eq {g : Grid} {v u : Int} {j : Nat} {row : List Nat} (x : Nat)
    (hj : normIdx g.length v = some j) (hrow : g.get? j = some row) :
    pySet2 g v u x = g.set j (pySet row u x) := by
  unfold pySet2
  rw [hj]
  dsimp only
  rw [hrow]

theorem pyGet2_some {g : Grid} {v u : Int} {cur : Nat} (h : pyGet2 g v u = some cur) :
    ∃ j row k, normIdx g.length v = some j ∧ g.get? j = some row
      ∧ normIdx row.length u = some k ∧ row.get? k = some cur := by
  unfold pyGet2 at h
  cases hv : pyGet g v with
  | none => rw [hv] at h; simp at h
  | some row =>
    rw [hv] at h
    obtain ⟨j, hj, hget⟩ := pyGet_some hv
    exact ⟨j, row, (pyGet_some h).choose, hj, hget, (pyGet_some h).choose_spec.1,
      (pyGet_some h).choose_spec.2⟩

theorem mark_gridSum {g : Grid} {v u : Int} (h : pyGet2 g v u = some 0) :
    gridSum (pySet2 g v u 1) = gridSum g + 1 := by
  obtain ⟨j, row, k, hj, hrow, hk, hcur⟩ := pyGet2_some h
  rw [pySet2_eq 1 hj hrow, pySet_eq 1 hk]
  have h1 := sum_set_nat row k 0 1 hcur
  have h2 := gridSum_set g j row (row.set k 1) hrow
  omega

theorem mark_wf {r2 : Nat} {g : Grid} {v u : Int} {cur : Nat} (h : pyGet2 g v u = some cur)
    (hwf : GridWF r2 g) : GridWF r2 (pySet2 g v u 1) := by
  obtain ⟨j, row, k, hj, hrow, hk, hcur⟩ := pyGet2_some h
  rw [pySet2_eq 1 hj hrow, pySet_eq 1 hk]
  obtain ⟨hlen, hrows, hentries⟩ := hwf
  refine ⟨by simpa using hlen, ?_, ?_⟩
  · intro row2 hmem
    rcases List.mem_or_eq_of_mem_set hmem with hm | hm
    · exact hrows row2 hm
    · subst hm
      simpa using hrows row (List.get?_mem hrow)
  · intro row2 hmem x hx
    rcases List.mem_or_eq_of_mem_set hmem with hm | hm
    · exact hentries row2 hm x hx
    · subst hm
      rcases List.mem_or_eq_of_mem_set hx with hm2 | hm2
      · exact hentries row (List.get?_mem hrow) x hm2
      · omega

theorem foldlM_err {σ α : Type} (P : PyErr → Prop) (f : σ → α → Except PyErr σ)
    (hf : ∀ s a e, f s a = .error e → P e) :
    ∀ (l : List α) (s : σ) (e : PyErr), List.foldlM f s l = .error e → P e := by
  intro l
  induction l with
  | nil => intro s e h; simp only [List.foldlM_nil] at h; cases h
  | cons a t ih =>
    intro s e h
    rw [List.foldlM_cons] at h
    cases hfa : f s a with
    | error e2 =>
      rw [hfa] at h
      simp only [Bind.bind, Except.bind] at h
      cases h
      exact hf s a _ hfa
    | ok s1 =>
      rw [hfa] at h
      simp only [Bind.bind, Except.bind] at h
      exact ih s1 e h

theorem pit_err {p : ℚ × ℚ} {tri : List (ℚ × ℚ)} {e : PyErr}
    (h : point_in_triangle_uv p tri = .error e) : e = .indexError := by
  unfold point_in_triangle_uv at h
  split at h <;> simp_all

theorem visitCell_ok {r : Nat} {uvs : List (ℚ × ℚ)} {u v : Int} {st st' : Grid × Nat}
    (h : visitCell r uvs u v st = .ok st') :
    (∀ r2, GridWF r2 st.1 → GridWF r2 st'.1)
      ∧ gridSum st'.1 + st.2 = gridSum st.1 + st'.2 ∧ st.2 ≤ st'.2 := by
  unfold visitCell at h
  cases hb : point_in_triangle_uv ((u : ℚ) / (r : ℚ), (v : ℚ) / (r : ℚ)) uvs with
  | error e => rw [hb] at h; simp [Bind.bind, Except.bind] at h
  | ok b =>
    rw [hb] at h
    simp only [Bind.bind, Except.bind] at h
    cases b with
    | false =>
      simp only [Bool.false_eq_true, if_false] at h
      cases h
      exact ⟨fun _ hw => hw, by omega, le_refl _⟩
    | true =>
      simp only [if_true] at h
      cases hg : pyGet2 st.1 v u with
      | none => rw [hg] at h; cases h
      | some cur =>
        rw [hg] at h
        dsimp only at h
        by_cases hc : cur = 0
        · subst hc
          rw [if_pos rfl] at h
          cases h
          refine ⟨fun r2 hw => mark_wf hg hw, ?_, by omega⟩
          have := mark_gridSum hg
          simp only at this ⊢
          omega
        · rw [if_neg hc] at h
          cases h
          exact ⟨fun _ hw => hw, by omega, le_refl _⟩

theorem visitCell_err {r : Nat} {uvs : List (ℚ × ℚ)} {u v : Int} {st : Grid × Nat} {e : PyErr}
    (h : visitCell r uvs u v st = .error e) : e = .indexError := by
  unfold visitCell at h
  cases hb : point_in_triangle_uv ((u : ℚ) / (r : ℚ), (v : ℚ) / (r : ℚ)) uvs with
  | error e2 =>
    rw [hb] at h
    simp only [Bind.bind, Except.bind] at h
    cases h
    exact pit_err hb
  | ok b =>
    rw [hb] at h
    simp only [Bind.bind, Except.bind] at h
    cases b with
    | false => simp only [Bool.false_eq_true, if_false] at h; cases h
    | true =>
      simp only [if_true] at h
      cases hg : pyGet2 st.1 v u with
      | none => rw [hg] at h; dsimp only at h; cases h; rfl
      | some cur =>
        rw [hg] at h
        dsimp only at h
        by_cases hc : cur = 0
        · subst hc; rw [if_pos rfl] at h; cases h
        · rw [if_neg hc] at h; cases h

theorem raster_fold_inner {r : Nat} {uvs : List (ℚ × ℚ)} {u : Int} (vL : List Int)
    {s s' : Grid × Nat}
    (h : List.foldlM (fun st2 v => visitCell r uvs u v st2) s vL = .ok s') :
    (∀ r2, GridWF r2 s.1 → GridWF r2 s'.1)
      ∧ gridSum s'.1 + s.2 = gridSum s.1 + s'.2 ∧ s.2 ≤ s'.2 := by
  induction vL generalizing s with
  | nil =>
    simp only [List.foldlM_nil] at h
    cases h
    exact ⟨fun _ hw => hw, by omega, le_refl _⟩
  | cons v t ih =>
    rw [List.foldlM_cons] at h
    cases hv : visitCell r uvs u v s with
    | error e => rw [hv] at h; simp [Bind.bind, Except.bind] at h
    | ok s1 =>
      rw [hv] at h
      simp only [Bind.bind, Except.bind] at h
      obtain ⟨w1, e1, m1⟩ := visitCell_ok hv
      obtain ⟨w2, e2, m2⟩ := ih h
      exact ⟨fun r2 hw => w2 r2 (w1 r2 hw), by omega, le_trans m1 m2⟩

theorem raster_fold_outer {r : Nat} {uvs : List (ℚ × ℚ)} (uL vL : List Int)
    {s s' : Grid × Nat}
    (h : List.foldlM
      (fun st1 u => List.foldlM (fun st2 v => visitCell r uvs u v st2) st1 vL) s uL = .ok s') :
    (∀ r2, GridWF r2 s.1 → GridWF r2 s'.1)
      ∧ gridSum s'.1 + s.2 = gridSum s.1 + s'.2 ∧ s.2 ≤ s'.2 := by
  induction uL generalizing s with
  | nil =>
    simp only [List.foldlM_nil] at h
    cases h
    exact ⟨fun _ hw => hw, by omega, le_refl _⟩
  | cons u t ih =>
    rw [List.foldlM_cons] at h
    cases hu : List.foldlM (fun st2 v => visitCell r uvs u v st2) s vL with
    | error e => rw [hu] at h; simp [Bind.bind, Except.bind] at h
    | ok s1 =>
      rw [hu] at h
      simp only [Bind.bind, Except.bind] at h
      obtain ⟨w1, e1, m1⟩ := raster_fold_inner vL hu
      obtain ⟨w2, e2, m2⟩ := ih h
      exact ⟨fun r2 hw => w2 r2 (w1 r2 hw), by omega, le_trans m1 m2⟩

theorem process_face_ok {r w h : Nat} {grid grid' : Grid} {sizes sizes' : List ℚ} {f : Face}
    (hpf : process_face r w h (grid, sizes) f = .ok (grid', sizes')) :
    (∀ r2, GridWF r2 grid → GridWF r2 grid')
      ∧ gridSum grid ≤ gridSum grid'
      ∧ sizes' = (if gridSum grid' = gridSum grid then sizes
          else sizes ++ [f.area / (((gridSum grid' - gridSum grid : Nat) : ℚ)
            * ((w : ℚ) / (r : ℚ)) * ((h : ℚ) / (r : ℚ)))]) := by
  obtain ⟨area, uvs⟩ := f
  cases uvs with
  | nil => simp [process_face] at hpf
  | cons uv0 rest =>
    simp only [process_face] at hpf
    generalize hul : intRange (pytrunc ((List.foldl min uv0.1 (List.map Prod.fst rest)) * (r : ℚ)))
        (min (pytrunc ((List.foldl max uv0.1 (List.map Prod.fst rest)) * (r : ℚ)) + 1) (r : Int)) = uL at hpf
    generalize hvl : intRange (pytrunc ((List.foldl min uv0.2 (List.map Prod.snd rest)) * (r : ℚ)))
        (min (pytrunc ((List.foldl max uv0.2 (List.map Prod.snd rest)) * (r : ℚ)) + 1) (r : Int)) = vL at hpf
    cases hres : List.foldlM
        (fun st1 u => List.foldlM (fun st2 v => visitCell r (uv0 :: rest) u v st2) st1 vL)
        (grid, 0) uL with
    | error e => rw [hres] at hpf; simp [Bind.bind, Except.bind] at hpf
    | ok res =>
      rw [hres] at hpf
      simp only [Bind.bind, Except.bind] at hpf
      obtain ⟨hwf, hsum, _⟩ := raster_fold_outer uL vL hres
      simp only at hwf hsum
      by_cases hpos : res.2 > 0
      · rw [if_pos hpos] at hpf
        injection hpf with h1
        injection h1 with hg hs
        subst hg; subst hs
        refine ⟨hwf, by omega, ?_⟩
        rw [if_neg (by omega)]
        have hn : gridSum res.1 - gridSum grid = res.2 := by omega
        rw [hn]
      · rw [if_neg hpos] at hpf
        injection hpf with h1
        injection h1 with hg hs
        subst hg; subst hs
        refine ⟨hwf, by omega, ?_⟩
        rw [if_pos (by omega)]

theorem process_face_err {r w h : Nat} {st : Grid × List ℚ} {f : Face} {e : PyErr}
    (hpf : process_face r w h st f = .error e) : e = .valueError ∨ e = .indexError := by
  obtain ⟨area, uvs⟩ := f
  cases uvs with
  | nil =>
    simp [process_face] at hpf
    exact Or.inl hpf.symm
  | cons uv0 rest =>
    simp only [process_face] at hpf
    generalize hul : intRange (pytrunc ((List.foldl min uv0.1 (List.map Prod.fst rest)) * (r : ℚ)))
        (min (pytrunc ((List.foldl max uv0.1 (List.map Prod.fst rest)) * (r : ℚ)) + 1) (r : Int)) = uL at hpf
    generalize hvl : intRange (pytrunc ((List.foldl min uv0.2 (List.map Prod.snd rest)) * (r : ℚ)))
        (min (pytrunc ((List.foldl max uv0.2 (List.map Prod.snd rest)) * (r : ℚ)) + 1) (r : Int)) = vL at hpf
    cases hres : List.foldlM
        (fun st1 u => List.foldlM (fun st2 v => visitCell r (uv0 :: rest) u v st2) st1 vL)
        (st.1, 0) uL with
    | error e2 =>
      rw [hres] at hpf
      simp only [Bind.bind, Except.bind] at hpf
      cases hpf
      refine Or.inr (foldlM_err (fun e => e = .indexError) _ ?_ uL (st.1, 0) _ hres)
      intro s a e3 hstep
      exact foldlM_err (fun e => e = .indexError) _
        (fun s2 v e4 hv => visitCell_err hv) vL s e3 hstep
    | ok res =>
      rw [hres] at hpf
      simp only [Bind.bind, Except.bind] at hpf
      by_cases hpos : res.2 > 0
      · rw [if_pos hpos] at hpf; cases hpf
      · rw [if_neg hpos] at hpf; cases hpf

theorem texel_faces_fold_wf {r w h : Nat} {faces : List Face} {st st' : Grid × List ℚ}
    (hf : texel_faces_fold r w h faces st = .ok st') :
    ∀ r2, GridWF r2 st.1 → GridWF r2 st'.1 := by
  unfold texel_faces_fold at hf
  induction faces generalizing st with
  | nil =>
    simp only [List.foldlM_nil] at hf
    cases hf
    exact fun _ hw => hw
  | cons f t ih =>
    rw [List.foldlM_cons] at hf
    cases hstep : process_face r w h st f with
    | error e => rw [hstep] at hf; simp [Bind.bind, Except.bind] at hf
    | ok s1 =>
      rw [hstep] at hf
      simp only [Bind.bind, Except.bind] at hf
      intro r2 hw
      obtain ⟨g1, sz1⟩ := s1
      obtain ⟨g0, sz0⟩ := st
      exact ih hf r2 ((process_face_ok hstep).1 r2 hw)

theorem texel_faces_fold_err {r w h : Nat} {faces : List Face} {st : Grid × List ℚ} {e : PyErr}
    (hf : texel_faces_fold r w h faces st = .error e) :
    e = .valueError ∨ e = .indexError := by
  unfold texel_faces_fold at hf
  exact foldlM_err (fun e => e = .valueError ∨ e = .indexError) _
    (fun s f e2 hstep => process_face_err hstep) faces st e hf

theorem initGrid_wf (r : Nat) : GridWF r (initGrid r) := by
  refine ⟨by simp [initGrid], ?_, ?_⟩
  · intro row hrow
    have := List.eq_of_mem_replicate hrow
    subst this
    simp
  · intro row hrow x hx
    have := List.eq_of_mem_replicate hrow
    subst this
    have := List.eq_of_mem_replicate hx
    omega

theorem countP_eq_sum {row : List Nat} (h : ∀ x ∈ row, x ≤ 1) :
    row.countP (fun x => decide (x ≠ 0)) = row.sum := by
  induction row with
  | nil => simp
  | cons a t ih =>
    rw [List.countP_cons, List.sum_cons]
    have ha : a ≤ 1 := h a (List.mem_cons_self a t)
    have ht := ih (fun x hx => h x (List.mem_cons_of_mem a hx))
    interval_cases a <;> simp_all <;> omega

theorem occupied_eq_gridSum {g : Grid} (h : ∀ row ∈ g, ∀ x ∈ row, x ≤ 1) :
    occupiedCount g = gridSum g := by
  unfold occupiedCount gridSum
  induction g with
  | nil => simp
  | cons row t ih =>
    simp only [List.map_cons, List.sum_cons]
    rw [countP_eq_sum (h row (List.mem_cons_self row t)),
      ih (fun r2 hr2 => h r2 (List.mem_cons_of_mem row hr2))]

theorem calc_of_fold {m : Mesh} {w h : Nat} (huv : m.uvLayer = true)
    (him : m.image = some (w, h)) {gF : Grid} {szs : List ℚ}
    (hfold : texel_faces_fold (gridRes w h) w h m.faces
      (initGrid (gridRes w h), []) = .ok (gF, szs))
    (hr : ¬(gridRes w h * gridRes w h = 0)) :
    calculate_texel_sizes_and_utilization m
      = .ok (.triple szs ((gridSum gF : ℚ) / ((gridRes w h * gridRes w h : Nat) : ℚ)) w) := by
  simp only [calculate_texel_sizes_and_utilization, huv, him, Bind.bind, Except.bind]
  rw [hfold]
  simp only [if_neg hr]
  simp

/-- Claim C5: the occupancy grid is square with side `int(max(w,h) * 0.5)`
= `max w h / 2`; a face processed by the rasterizer preserves grid
well-formedness; when it covers at least one fresh cell it appends exactly
the squared texel size `face_area / (covered * (w/R) * (h/R))`, where
`covered` is the number of NEWLY occupied cells (the increase of the grid
sum — a cell already occupied by an earlier face is never recounted), and
appends nothing otherwise; and the returned utilization equals the number
of distinct occupied cells divided by the total cell count `R * R`. -/
theorem claim_C5 (w h : Nat) (grid grid' : Grid) (sizes sizes' : List ℚ) (f : Face)
    (m : Mesh) (gF : Grid) (szs : List ℚ)
    (hwf : GridWF (gridRes w h) grid)
    (hpf : process_face (gridRes w h) w h (grid, sizes) f = .ok (grid', sizes'))
    (huv : m.uvLayer = true) (him : m.image = some (w, h))
    (hfold : texel_faces_fold (gridRes w h) w h m.faces
      (initGrid (gridRes w h), []) = .ok (gF, szs))
    (hr : ¬(gridRes w h * gridRes w h = 0)) :
    gridRes w h = max w h / 2
    ∧ GridWF (gridRes w h) grid'
    ∧ gridSum grid ≤ gridSum grid'
    ∧ sizes' = (if gridSum grid' = gridSum grid then sizes
        else sizes ++ [f.area / (((gridSum grid' - gridSum grid : Nat) : ℚ)
          * ((w : ℚ) / (gridRes w h : ℚ)) * ((h : ℚ) / (gridRes w h : ℚ)))])
    ∧ calculate_texel_sizes_and_utilization m
        = .ok (.triple szs ((occupiedCount gF : ℚ)
            / ((gridRes w h : ℚ) * (gridRes w h : ℚ))) w) := by
  obtain ⟨hw1, hw2, hw3⟩ := process_face_ok hpf
  refine ⟨gridRes_eq w h, hw1 _ hwf, hw2, hw3, ?_⟩
  rw [calc_of_fold huv him hfold hr]
  have hocc : occupiedCount gF = gridSum gF := by
    apply occupied_eq_gridSum
    exact (texel_faces_fold_wf hfold (gridRes w h) (initGrid_wf (gridRes w h))).2.2
  rw [hocc]
  congr 1
  push_cast
  ring

theorem process_face_r0 {w h : Nat} {g : Grid} {sz : List ℚ} {f : Face} (hne : f.uvs ≠ []) :
    process_face 0 w h (g, sz) f = .ok (g, sz) := by
  obtain ⟨area, uvs⟩ := f
  cases uvs with
  | nil => simp at hne
  | cons uv0 rest =>
    simp only [process_face, Nat.cast_zero, mul_zero, pytrunc_zero, CharP.cast_eq_zero]
    rw [intRange_eq_nil (by omega)]
    simp [Bind.bind, Except.bind, pure, Except.pure]

theorem texel_fold_r0 {w h : Nat} {faces : List Face} {g : Grid} {sz : List ℚ}
    (hne : ∀ f ∈ faces, f.uvs ≠ []) :
    texel_faces_fold 0 w h faces (g, sz) = .ok (g, sz) := by
  unfold texel_faces_fold
  induction faces with
  | nil => simp [List.foldlM_nil]; rfl
  | cons f t ih =>
    rw [List.foldlM_cons, process_face_r0 (hne f (List.mem_cons_self f t))]
    simp only [Bind.bind, Except.bind]
    exact ih (fun f2 hf2 => hne f2 (List.mem_cons_of_mem f hf2))

theorem gridRes_one_one : gridRes 1 1 = 0 := by
  rw [gridRes_eq]; decide

/-- Claim C10: for a texture whose larger pixel dimension is at least 2,
the grid resolution `int(max(w,h) * 0.5)` is at least 1, the total
grid-cell count is nonzero, and the utilization division cannot raise
`ZeroDivisionError`; for a 1-by-1 texture the resolution is 0 and
`calculate_texel_sizes_and_utilization` raises `ZeroDivisionError` for
every mesh bound to it (with a UV layer and well-formed faces). -/
theorem claim_C10 (w h : Nat) (m m2 : Mesh)
    (hwh : 2 ≤ max w h)
    (h1 : m.uvLayer = true) (h2 : m.image = some (1, 1))
    (h3 : ∀ f ∈ m.faces, f.uvs ≠ [])
    (h4 : m2.uvLayer = true) (h5 : m2.image = some (w, h)) :
    1 ≤ gridRes w h ∧ ¬(gridRes w h * gridRes w h = 0)
    ∧ gridRes 1 1 = 0
    ∧ calculate_texel_sizes_and_utilization m = .error .zeroDivision
    ∧ calculate_texel_sizes_and_utilization m2 ≠ .error .zeroDivision := by
  have hge : 1 ≤ gridRes w h := by rw [gridRes_eq]; omega
  have hne0 : ¬(gridRes w h * gridRes w h = 0) := by
    intro hc
    rcases Nat.mul_eq_zero.mp hc with hc2 | hc2 <;> omega
  refine ⟨hge, hne0, gridRes_one_one, ?_, ?_⟩
  · simp only [calculate_texel_sizes_and_utilization, h1, h2, Bind.bind, Except.bind,
      gridRes_one_one]
    rw [texel_fold_r0 h3]
    simp
  · intro hcontra
    simp only [calculate_texel_sizes_and_utilization, h4, h5, Bind.bind, Except.bind] at hcontra
    rw [if_neg (show ¬(true = false) from by simp)] at hcontra
    cases hfold2 : texel_faces_fold (gridRes w h) w h m2.faces
        (initGrid (gridRes w h), []) with
    | error e =>
      rw [hfold2] at hcontra
      dsimp only at hcontra
      injection hcontra with he
      subst he
      rcases texel_faces_fold_err hfold2 with hc | hc <;> cases hc
    | ok res =>
      rw [hfold2] at hcontra
      dsimp only at hcontra
      rw [if_neg hne0] at hcontra
      cases hcontra

theorem le_pytrunc {q : ℚ} {n : Int} (h0 : 0 ≤ q) (h : (n : ℚ) ≤ q) : n ≤ pytrunc q := by
  rw [pytrunc_eq_floor q h0]
  exact Int.le_floor.mpr h

theorem pytrunc_lt {q : ℚ} {n : Int} (h0 : 0 ≤ q) (h : q < (n : ℚ)) : pytrunc q < n := by
  rw [pytrunc_eq_floor q h0]
  exact Int.floor_lt.mpr h

theorem pytrunc_nonneg {q : ℚ} (h0 : 0 ≤ q) : 0 ≤ pytrunc q :=
  le_pytrunc h0 (by exact_mod_cast h0)

theorem foldl_min_ge {l : List ℚ} {a c : ℚ} (ha : c ≤ a) (hl : ∀ x ∈ l, c ≤ x) :
    c ≤ List.foldl min a l := by
  induction l generalizing a with
  | nil => simpa using ha
  | cons x t ih =>
    rw [List.foldl_cons]
    exact ih (le_min ha (hl x (List.mem_cons_self x t)))
      (fun y hy => hl y (List.mem_cons_of_mem x hy))

theorem replicate_get? {α : Type} {n j : Nat} {a : α} (h : j < n) :
    (List.replicate n a).get? j = some a := by
  induction n generalizing j with
  | zero => omega
  | succ n ih =>
    cases j with
    | zero => simp [List.replicate]
    | succ j => simpa [List.replicate] using ih (by omega)

theorem pyGet2_initGrid {r : Nat} {v u : Int} (h0v : 0 ≤ v) (hv : v < (r : Int))
    (h0u : 0 ≤ u) (hu : u < (r : Int)) : pyGet2 (initGrid r) v u = some 0 := by
  unfold pyGet2 pyGet initGrid
  rw [List.length_replicate, normIdx_of_bounds h0v hv]
  simp only [Option.bind_some, Option.some_bind]
  rw [replicate_get? (by omega)]
  simp only [Option.bind_some, Option.some_bind]
  rw [List.length_replicate, normIdx_of_bounds h0u hu]
  simp only [Option.bind_some, Option.some_bind]
  rw [replicate_get? (by omega)]

theorem gridSum_initGrid (r : Nat) : gridSum (initGrid r) = 0 := by
  simp [gridSum, initGrid, List.map_replicate, List.sum_replicate]

/-- Helper for claim C4: a face entirely past the right edge of UV space contributes nothing. -/
theorem face_right_of_one_skipped (r w h : Nat) (grid : Grid) (sizes : List ℚ) (f : Face)
    (hne : f.uvs ≠ []) (hout : ∀ p ∈ f.uvs, 1 ≤ p.1) :
    process_face r w h (grid, sizes) f = .ok (grid, sizes) := by
  obtain ⟨fa, fuvs⟩ := f
  cases fuvs with
  | nil => simp at hne
  | cons uv0 rest =>
    simp only [process_face]
    have hmin : (1 : ℚ) ≤ List.foldl min uv0.1 (List.map Prod.fst rest) := by
      apply foldl_min_ge (hout uv0 (List.mem_cons_self uv0 rest))
      intro x hx
      obtain ⟨p, hp, hpx⟩ := List.mem_map.mp hx
      exact hpx ▸ hout p (List.mem_cons_of_mem uv0 hp)
    have hge : (r : Int) ≤ pytrunc ((List.foldl min uv0.1 (List.map Prod.fst rest)) * (r : ℚ)) := by
      apply le_pytrunc
      · positivity
      · push_cast
        nlinarith
    rw [intRange_eq_nil (le_trans (min_le_right _ _) hge)]
    simp [Bind.bind, Except.bind, pure, Except.pure]

theorem pit_degenerate (p : ℚ × ℚ) (u v : ℚ) :
    point_in_triangle_uv p [(u, v), (u, v), (u, v)] = .ok true := by
  unfold point_in_triangle_uv
  have h0 : pyGet [(u, v), (u, v), (u, v)] 0 = some (u, v) := by
    simp [pyGet, normIdx]
  have h1 : pyGet [(u, v), (u, v), (u, v)] 1 = some (u, v) := by
    simp [pyGet, normIdx]
  have h2 : pyGet [(u, v), (u, v), (u, v)] 2 = some (u, v) := by
    simp [pyGet, normIdx]
  rw [h0, h1, h2]
  have hs : sign p (u, v) (u, v) = 0 := by
    simp [sign]
  simp [hs]

/-- Helper for claim C4: an all-equal-UV degenerate face inside the unit square marks exactly one cell and appends one entry. -/
theorem face_degenerate_marks_one (r w h : Nat) (sizes : List ℚ) (g : Face) (u v : ℚ)
    (hg : g.uvs = [(u, v), (u, v), (u, v)])
    (hu0 : 0 ≤ u) (hu1 : u < 1) (hv0 : 0 ≤ v) (hv1 : v < 1) (hr : 1 ≤ r) :
    process_face r w h (initGrid r, sizes) g
      = .ok (pySet2 (initGrid r) (pytrunc (v * r)) (pytrunc (u * r)) 1,
          sizes ++ [g.area / ((1 : ℚ) * ((w : ℚ) / (r : ℚ)) * ((h : ℚ) / (r : ℚ)))])
    ∧ gridSum (pySet2 (initGrid r) (pytrunc (v * r)) (pytrunc (u * r)) 1) = 1 := by
  obtain ⟨ga, guvs⟩ := g
  simp only at hg
  subst hg
  have hrq : (0 : ℚ) < (r : ℚ) := by exact_mod_cast Nat.lt_of_lt_of_le Nat.zero_lt_one hr
  have hku : 0 ≤ pytrunc (u * r) := pytrunc_nonneg (by positivity)
  have hku2 : pytrunc (u * r) < (r : Int) := by
    apply pytrunc_lt (by positivity)
    push_cast
    nlinarith
  have hkv : 0 ≤ pytrunc (v * r) := pytrunc_nonneg (by positivity)
  have hkv2 : pytrunc (v * r) < (r : Int) := by
    apply pytrunc_lt (by positivity)
    push_cast
    nlinarith
  have hget : pyGet2 (initGrid r) (pytrunc (v * r)) (pytrunc (u * r)) = some 0 :=
    pyGet2_initGrid hkv hkv2 hku hku2
  constructor
  · simp only [process_face]
    simp only [List.map_cons, List.map_nil, List.foldl_cons, List.foldl_nil, min_self, max_self]
    rw [min_eq_left (by omega : pytrunc (u * r) + 1 ≤ (r : Int)),
      min_eq_left (by omega : pytrunc (v * r) + 1 ≤ (r : Int))]
    rw [intRange_single, intRange_single]
    rw [List.foldlM_cons]
    rw [List.foldlM_cons]
    unfold visitCell
    rw [pit_degenerate]
    simp only [Bind.bind, Except.bind, if_true]
    rw [hget]
    simp only [if_pos rfl, List.foldlM_nil, pure, Except.pure]
    norm_num
  · rw [mark_gridSum hget, gridSum_initGrid]

theorem filter_lod_orderedInsert (k : Nat) (d : TileDesc) (l : List TileDesc) :
    (List.orderedInsert lodLE d l).filter (fun e => e.lod_level == k)
      = if d.lod_level = k then d :: l.filter (fun e => e.lod_level == k)
        else l.filter (fun e => e.lod_level == k) := by
  induction l with
  | nil =>
    simp only [List.orderedInsert_nil, List.filter_cons, List.filter_nil]
    by_cases hdk : d.lod_level = k
    · rw [if_pos (by simpa using hdk), if_pos hdk]
    · rw [if_neg (by simpa using hdk), if_neg hdk]
  | cons e t ih =>
    show (if lodLE d e then d :: e :: t else e :: List.orderedInsert lodLE d t).filter
        (fun e => e.lod_level == k) = _
    by_cases hle : lodLE d e
    · rw [if_pos hle]
      by_cases hdk : d.lod_level = k
      · rw [if_pos hdk, List.filter_cons, if_pos (by simpa using hdk)]
      · rw [if_neg hdk, List.filter_cons, if_neg (by simpa using hdk)]
    · rw [if_neg hle]
      have hlt : e.lod_level < d.lod_level := by
        unfold lodLE at hle; omega
      by_cases hdk : d.lod_level = k
      · have hek : ¬(e.lod_level = k) := by omega
        rw [if_pos hdk, List.filter_cons, if_neg (by simpa using hek),
          List.filter_cons, if_neg (by simpa using hek), ih, if_pos hdk]
      · rw [if_neg hdk, List.filter_cons, List.filter_cons, ih, if_neg hdk]

theorem filter_lod_sort (k : Nat) (l : List TileDesc) :
    (sort_by_lod l).filter (fun e => e.lod_level == k)
      = l.filter (fun e => e.lod_level == k) := by
  unfold sort_by_lod
  induction l with
  | nil => rfl
  | cons d t ih =>
    show (List.orderedInsert lodLE d (List.insertionSort lodLE t)).filter
        (fun e => e.lod_level == k) = _
    rw [filter_lod_orderedInsert]
    by_cases hdk : d.lod_level = k
    · rw [if_pos hdk, ih, List.filter_cons, if_pos (by simpa using hdk)]
    · rw [if_neg hdk, ih, List.filter_cons, if_neg (by simpa using hdk)]

/-- Claim C7: whenever the recursive traversal completes, `load_tileset`
returns the discovery list sorted ascending by `lod_level`, and the sort
is stable with respect to discovery order: for every LOD value, the
returned list restricted to that LOD equals the discovery list restricted
to it. -/
theorem claim_C7 (fs : FS) (fuel c0 : Nat) (tilesetPath : String) (root : TileJson)
    (st : TravState)
    (hdoc : fs.docs tilesetPath = some root)
    (hrun : process_tile_structure fs fuel root none 0 (path_dirname tilesetPath)
      ⟨c0, []⟩ = .ok st) :
    load_tileset fs fuel c0 tilesetPath = .ok (sort_by_lod st.tiles)
    ∧ List.Sorted lodLE (sort_by_lod st.tiles)
    ∧ ∀ k, (sort_by_lod st.tiles).filter (fun e => e.lod_level == k)
        = st.tiles.filter (fun e => e.lod_level == k) := by
  refine ⟨?_, ?_, fun k => filter_lod_sort k st.tiles⟩
  · unfold load_tileset
    rw [hdoc]
    dsimp only
    rw [hrun]
    simp [Bind.bind, Except.bind]
  · exact List.sorted_insertionSort lodLE st.tiles

theorem travinv_append {st : TravState} {d : TileDesc} (hid : d.tile_id = st.counter + 1)
    (h : TravInv st) : TravInv ⟨st.counter + 1, st.tiles ++ [d]⟩ := by
  obtain ⟨hpw, hbd⟩ := h
  constructor
  · rw [List.pairwise_append]
    refine ⟨hpw, List.pairwise_singleton _ _, ?_⟩
    intro a ha b hb
    have := hbd a ha
    simp only [List.mem_singleton] at hb
    subst hb
    omega
  · intro e he
    rcases List.mem_append.mp he with hm | hm
    · exact le_trans (hbd e hm) (Nat.le_succ _)
    · simp only [List.mem_singleton] at hm
      subst hm
      rw [hid]

theorem grid_file_pres (pid : Option Nat) (g : Option ℚ) (bp : String)
    (s : TravState × Option Nat) (rel : String) :
    (TravInv s.1 → TravInv ((process_grid_file pid g bp s rel).1))
      ∧ s.1.counter ≤ ((process_grid_file pid g bp s rel).1).counter := by
  unfold process_grid_file
  by_cases hend : strEndsWith (file_basename rel) ".glb" = true
  · rw [if_pos hend]
    cases hm : match_tiles_pat rel with
    | none => exact ⟨fun h => h, le_refl _⟩
    | some lxyz =>
      dsimp only [get_unique_tile_id]
      exact ⟨fun h => travinv_append rfl h, Nat.le_succ _⟩
  · rw [if_neg hend]
    exact ⟨fun h => h, le_refl _⟩

theorem walk_fold_pres (pid : Option Nat) (g : Option ℚ) (bp : String) :
    ∀ (files : List String) (s : TravState × Option Nat),
      (TravInv s.1 → TravInv ((files.foldl (process_grid_file pid g bp) s).1))
        ∧ s.1.counter ≤ ((files.foldl (process_grid_file pid g bp) s).1).counter := by
  intro files
  induction files with
  | nil => intro s; exact ⟨fun h => h, le_refl _⟩
  | cons rel t ih =>
    intro s
    rw [List.foldl_cons]
    obtain ⟨h1, h2⟩ := grid_file_pres pid g bp s rel
    obtain ⟨h3, h4⟩ := ih (process_grid_file pid g bp s rel)
    exact ⟨fun h => h3 (h1 h), le_trans h2 h4⟩

theorem trav_fold_pres {α : Type} (f : TravState → α → Except PyErr TravState)
    (hf : ∀ s a s', f s a = .ok s' → (TravInv s → TravInv s') ∧ s.counter ≤ s'.counter) :
    ∀ (l : List α) (s s' : TravState), List.foldlM f s l = .ok s' →
      (TravInv s → TravInv s') ∧ s.counter ≤ s'.counter := by
  intro l
  induction l with
  | nil =>
    intro s s' h
    simp only [List.foldlM_nil] at h
    cases h
    exact ⟨fun h => h, le_refl _⟩
  | cons a t ih =>
    intro s s' h
    rw [List.foldlM_cons] at h
    cases hfa : f s a with
    | error e => rw [hfa] at h; simp [Bind.bind, Except.bind] at h
    | ok s1 =>
      rw [hfa] at h
      simp only [Bind.bind, Except.bind] at h
      obtain ⟨h1, h2⟩ := hf s a s1 hfa
      obtain ⟨h3, h4⟩ := ih s1 s' h
      exact ⟨fun h => h3 (h1 h), le_trans h2 h4⟩

theorem process_tile_pres (fs : FS) :
    ∀ (fuel : Nat) (tile : TileJson) (pid : Option Nat) (lod : Nat) (bp : String)
      (st st' : TravState),
      process_tile_structure fs fuel tile pid lod bp st = .ok st' →
      (TravInv st → TravInv st') ∧ st.counter ≤ st'.counter := by
  intro fuel
  induction fuel with
  | zero =>
    intro tile pid lod bp st st' h
    simp [process_tile_structure] at h
  | succ fuel ih =>
    intro tile pid lod bp st st' h
    obtain ⟨content, gerr, children⟩ := tile
    rw [process_tile_structure] at h
    simp only [Bind.bind, Except.bind] at h
    split at h
    case isTrue himp =>
      refine trav_fold_pres _ ?_ children _ st' h |>.imp
        (fun hh hi => hh ((walk_fold_pres pid gerr bp _ (st, none)).1 hi))
        (fun hh => le_trans (walk_fold_pres pid gerr bp _ (st, none)).2 hh)
      intro s a s2 hsa
      cases htid : ((fs.walkFiles bp).foldl (process_grid_file pid gerr bp) (st, none)).2 with
      | none => rw [htid] at hsa; cases hsa
      | some t => rw [htid] at hsa; exact ih a (some t) (lod + 1) bp s s2 hsa
    case isFalse hnimp =>
      split at h
      next hurl =>
        refine trav_fold_pres _ ?_ children _ st' h
        intro s a s2 hsa
        cases hsa
      next url hurl =>
        split at h
        case isTrue hemp =>
          refine trav_fold_pres _ ?_ children _ st' h
          intro s a s2 hsa
          cases hsa
        case isFalse hemp =>
          split at h
          case isTrue hjson =>
            split at h
            next hdocs => exact Except.noConfusion h
            next root2 hdocs =>
              cases hrec : process_tile_structure fs fuel root2 pid lod
                  (path_dirname (path_join bp url)) st with
              | error e =>
                rw [hrec] at h
                dsimp only at h
                exact Except.noConfusion h
              | ok st2 =>
                rw [hrec] at h
                dsimp only at h
                obtain ⟨hr1, hr2⟩ := ih root2 pid lod (path_dirname (path_join bp url)) st st2 hrec
                refine (trav_fold_pres _ ?_ children st2 st' h).imp
                  (fun hh hi => hh (hr1 hi)) (fun hh => le_trans hr2 hh)
                intro s a s2 hsa
                cases hsa
          case isFalse hjson =>
            split at h
            case isTrue hglb =>
              dsimp only [get_unique_tile_id] at h
              refine (trav_fold_pres _ ?_ children _ st' h).imp
                (fun hh hi => hh (travinv_append rfl hi)) (fun hh => le_trans (Nat.le_succ _) hh)
              intro s a s2 hsa
              exact ih a (some (st.counter + 1)) (lod + 1) bp s s2 hsa
            case isFalse hglb =>
              refine trav_fold_pres _ ?_ children _ st' h
              intro s a s2 hsa
              cases hsa

/-- Claim C9: all `tile_id` values in a list returned by `load_tileset`
are pairwise distinct: the ID counter strictly increases on every
assignment, so the discovery list carries strictly increasing ids, and
the final sort only permutes them. -/
theorem claim_C9 (fs : FS) (fuel c0 : Nat) (tilesetPath : String) (out : List TileDesc)
    (h : load_tileset fs fuel c0 tilesetPath = .ok out) :
    (out.map TileDesc.tile_id).Nodup := by
  unfold load_tileset at h
  cases hdoc : fs.docs tilesetPath with
  | none => rw [hdoc] at h; exact Except.noConfusion h
  | some root =>
    rw [hdoc] at h
    dsimp only at h
    simp only [Bind.bind, Except.bind] at h
    cases hrun : process_tile_structure fs fuel root none 0
        (path_dirname tilesetPath) ⟨c0, []⟩ with
    | error e => rw [hrun] at h; exact Except.noConfusion h
    | ok st =>
      rw [hrun] at h
      dsimp only at h
      injection h with hout
      subst hout
      have hinv : TravInv st := by
        refine (process_tile_pres fs fuel root none 0 (path_dirname tilesetPath)
          ⟨c0, []⟩ st hrun).1 ?_
        exact ⟨List.Pairwise.nil, fun d hd => absurd hd (List.not_mem_nil d)⟩
      have hpw : (st.tiles.map TileDesc.tile_id).Pairwise (· < ·) :=
        List.Pairwise.map TileDesc.tile_id (fun a b hab => hab) hinv.1
      have hnd : (st.tiles.map TileDesc.tile_id).Nodup :=
        List.Pairwise.imp (fun hab => Nat.ne_of_lt hab) hpw
      have hperm : List.Perm (sort_by_lod st.tiles) st.tiles := List.perm_insertionSort lodLE st.tiles
      exact ((hperm.map TileDesc.tile_id).nodup_iff).mpr hnd

/-- Claim C2 (code bug): the specification says a node that emits no
descriptor of its own still recurses into its children passing the
inherited parent id and completes without error; the code instead passes
the local variable `tile_id`, which such nodes never assign, so the
children loop raises `UnboundLocalError` (a `NameError`).  Shown on a
content-less root with one child, and on a root whose content is a nested
tileset document, with children. -/
theorem claim_C2 :
    process_tile_structure ⟨fun _ => none, fun _ => []⟩ 2
        (.node none (some 16) [.node (some ⟨some "a.glb", none⟩) none []]) none 0 ""
        ⟨0, []⟩ = .error .nameError
    ∧ process_tile_structure
        ⟨fun p => if p = "n.json"
            then some (.node (some ⟨some "c.glb", none⟩) none []) else none,
          fun _ => []⟩ 3
        (.node (some ⟨some "n.json", none⟩) (some 16)
          [.node (some ⟨some "a.glb", none⟩) none []]) none 0 ""
        ⟨0, []⟩ = .error .nameError := by
  constructor
  · decide
  · decide

theorem spec_full_match_imp {s : String} {t : Nat × Nat × Nat × Nat}
    (h : spec_full_match s = some t) : match_tiles_pat s = some t := by
  unfold spec_full_match at h
  unfold match_tiles_pat
  cases h0 : dropLit "tiles/".data s.data with
  | none => rw [h0] at h; exact Option.noConfusion h
  | some r0 =>
    rw [h0] at h
    simp only [Bind.bind, Option.bind] at h ⊢
    cases h1 : takeDigits r0 with
    | none => rw [h1] at h; exact Option.noConfusion h
    | some p1 =>
      rw [h1] at h
      simp only [Bind.bind, Option.bind] at h ⊢
      obtain ⟨l, r1⟩ := p1
      simp only [] at h ⊢
      cases h2 : dropLit ['/'] r1 with
      | none => rw [h2] at h; exact Option.noConfusion h
      | some r2 =>
        rw [h2] at h
        simp only [Bind.bind, Option.bind] at h ⊢
        cases h3 : takeDigits r2 with
        | none => rw [h3] at h; exact Option.noConfusion h
        | some p2 =>
          rw [h3] at h
          simp only [Bind.bind, Option.bind] at h ⊢
          obtain ⟨x, r3⟩ := p2
          simp only [] at h ⊢
          cases h4 : dropLit ['/'] r3 with
          | none => rw [h4] at h; exact Option.noConfusion h
          | some r4 =>
            rw [h4] at h
            simp only [Bind.bind, Option.bind] at h ⊢
            cases h5 : takeDigits r4 with
            | none => rw [h5] at h; exact Option.noConfusion h
            | some p3 =>
              rw [h5] at h
              simp only [Bind.bind, Option.bind] at h ⊢
              obtain ⟨y, r5⟩ := p3
              simp only [] at h ⊢
              cases h6 : dropLit ['/'] r5 with
              | none => rw [h6] at h; exact Option.noConfusion h
              | some r6 =>
                rw [h6] at h
                simp only [Bind.bind, Option.bind] at h ⊢
                cases h7 : takeDigits r6 with
                | none => rw [h7] at h; exact Option.noConfusion h
                | some p4 =>
                  rw [h7] at h
                  simp only [Bind.bind, Option.bind] at h ⊢
                  obtain ⟨z, r7⟩ := p4
                  simp only [] at h ⊢
                  cases h8 : dropLit ".glb".data r7 with
                  | none => rw [h8] at h; exact Option.noConfusion h
                  | some r8 =>
                    rw [h8] at h
                    simp only [Bind.bind, Option.bind] at h ⊢
                    by_cases hemp : r8.isEmpty
                    · rw [if_pos hemp] at h
                      exact h
                    · rw [if_neg hemp] at h
                      exact Option.noConfusion h

/-- Claim C8 (amended): during the implicit-tiling scan, a file whose
basename ends in `.glb` and whose relative path starts with
`tiles/<digits>/<digits>/<digits>/<digits>.glb` (the code's `re.match`
anchors at the start only) yields exactly one appended descriptor whose
`lod_level` is the parsed level and whose `grid_coords` are the parsed
`(level, x, y, z)`; every other file leaves the state unchanged; and a
path that fully matches the convention is in particular accepted with the
same parse. -/
theorem claim_C8 (pid : Option Nat) (sse : Option ℚ) (bp : String)
    (st st2 : TravState) (tid tid2 : Option Nat) (rel rel2 rel3 : String)
    (l x y z l3 x3 y3 z3 : Nat)
    (hend : strEndsWith (file_basename rel) ".glb" = true)
    (hmatch : match_tiles_pat rel = some (l, x, y, z))
    (hskip : strEndsWith (file_basename rel2) ".glb" = false ∨ match_tiles_pat rel2 = none)
    (hfull : spec_full_match rel3 = some (l3, x3, y3, z3)) :
    process_grid_file pid sse bp (st, tid) rel
      = (⟨st.counter + 1,
          st.tiles ++ [⟨l, st.counter + 1, pid, rel, sse, bp, some (l, x, y, z)⟩]⟩,
        some (st.counter + 1))
    ∧ process_grid_file pid sse bp (st2, tid2) rel2 = (st2, tid2)
    ∧ match_tiles_pat rel3 = some (l3, x3, y3, z3) := by
  refine ⟨?_, ?_, spec_full_match_imp hfull⟩
  · unfold process_grid_file
    rw [if_pos hend, hmatch]
    dsimp only [get_unique_tile_id]
  · unfold process_grid_file
    rcases hskip with hs1 | hs1
    · rw [if_neg (by rw [hs1]; exact Bool.false_ne_true)]
    · by_cases he2 : strEndsWith (file_basename rel2) ".glb" = true
      · rw [if_pos he2, hs1]
      · rw [if_neg he2]

theorem mapM_id_all_some {α : Type} :
    ∀ (l : List (Option α)), (∀ o ∈ l, o.isSome = true) →
      l.mapM id = some l.reduceOption := by
  intro l
  induction l with
  | nil => intro _; rfl
  | cons o t ih =>
    intro hall
    cases ho : o with
    | none =>
      have hcontra := hall o (List.mem_cons_self o t)
      rw [ho] at hcontra
      simp at hcontra
    | some a =>
      subst ho
      rw [List.mapM_cons]
      simp only [id_eq, Bind.bind, Option.bind]
      rw [ih (fun o2 ho2 => hall o2 (List.mem_cons_of_mem _ ho2))]
      simp [List.reduceOption]

theorem mapM_ok_of_forall {α β : Type} (f : α → Except PyErr β) (g : α → β) :
    ∀ (l : List α), (∀ a ∈ l, f a = .ok (g a)) → l.mapM f = .ok (l.map g) := by
  intro l
  induction l with
  | nil => intro _; rfl
  | cons a t ih =>
    intro hall
    rw [List.mapM_cons, hall a (List.mem_cons_self a t)]
    simp only [Bind.bind, Except.bind]
    rw [ih (fun b hb => hall b (List.mem_cons_of_mem a hb))]
    simp only [Bind.bind, Except.bind, pure, Except.pure, List.map_cons]

theorem agg_row_eq (results : List TileResult) (lod : Nat)
    (hne : results.filter (fun r => r.lod_level == lod) ≠ [])
    (hp : ∀ r ∈ results, r.parent_id.isSome = true)
    (hs : ∀ r ∈ results, r.screen_space_error.isSome = true) :
    agg_row lod (results.filter (fun r => r.lod_level == lod))
      = .ok (spec_summary_row results lod) := by
  cases hg : results.filter (fun r => r.lod_level == lod) with
  | nil => exact absurd hg hne
  | cons g0 rest =>
    have hg0 : g0 ∈ results :=
      List.mem_of_mem_filter (hg ▸ List.mem_cons_self g0 rest)
    have hallp : ∀ o ∈ (g0 :: rest).map TileResult.parent_id, o.isSome = true := by
      intro o ho
      obtain ⟨r, hr, hro⟩ := List.mem_map.mp ho
      have : r ∈ results := List.mem_of_mem_filter (hg ▸ hr)
      exact hro ▸ hp r this
    have halls : ∀ o ∈ (g0 :: rest).map TileResult.screen_space_error, o.isSome = true := by
      intro o ho
      obtain ⟨r, hr, hro⟩ := List.mem_map.mp ho
      have : r ∈ results := List.mem_of_mem_filter (hg ▸ hr)
      exact hro ▸ hs r this
    obtain ⟨p0, hp0⟩ := Option.isSome_iff_exists.mp (hp g0 hg0)
    obtain ⟨s0, hs0⟩ := Option.isSome_iff_exists.mp (hs g0 hg0)
    unfold agg_row
    dsimp only
    unfold optColMean optColMeanRat
    rw [hp0, hs0]
    dsimp only
    rw [mapM_id_all_some _ hallp, mapM_id_all_some _ halls]
    dsimp only
    simp only [Bind.bind, Except.bind]
    unfold spec_summary_row
    rw [← hg]

theorem lod_keys_mem {results : List TileResult} {k : Nat} :
    k ∈ lod_keys results ↔ k ∈ results.map TileResult.lod_level := by
  unfold lod_keys
  rw [(List.perm_insertionSort _ _).mem_iff, List.mem_dedup]

/-- Claim C6 (amended): for a non-empty result list in which the optional
numeric columns (`parent_id`, `screen_space_error`) are present on every
result, the summary built by `write_results_to_csv` has exactly
one row per `lod_level` value occurring in the results, emitted in
strictly ascending LOD order, and each row equals the specification's row
over the group — the filter of the input at that LOD — with tile count =
group size, `total_polygons` = group sum, and every other numeric field
the arithmetic mean over the group (see `spec_summary_row`). -/
theorem claim_C6 (results : List TileResult)
    (hne : results ≠ [])
    (hp : ∀ r ∈ results, r.parent_id.isSome = true)
    (hs : ∀ r ∈ results, r.screen_space_error.isSome = true) :
    build_summary results = .ok ((lod_keys results).map (spec_summary_row results))
    ∧ (lod_keys results).Pairwise (· < ·)
    ∧ lod_keys results ≠ []
    ∧ (lod_keys results).toFinset = (results.map TileResult.lod_level).toFinset
    ∧ write_results_to_csv results
        = .ok ⟨(lod_keys results).map (spec_summary_row results), results⟩ := by
  have hrows : ∀ lod ∈ lod_keys results,
      agg_row lod (results.filter (fun r => r.lod_level == lod))
        = .ok (spec_summary_row results lod) := by
    intro lod hk
    obtain ⟨r, hr, hrl⟩ := List.mem_map.mp (lod_keys_mem.mp hk)
    refine agg_row_eq results lod ?_ hp hs
    apply List.ne_nil_of_mem (a := r)
    rw [List.mem_filter]
    exact ⟨hr, by simp [hrl]⟩
  have hbuild : build_summary results
      = .ok ((lod_keys results).map (spec_summary_row results)) := by
    unfold build_summary
    exact mapM_ok_of_forall _ _ (lod_keys results) hrows
  have hsorted : List.Sorted (fun a b => a ≤ b) (lod_keys results) :=
    List.sorted_insertionSort _ _
  have hnodup : (lod_keys results).Nodup :=
    ((List.perm_insertionSort _ _).nodup_iff).mpr (List.nodup_dedup _)
  have hlt : (lod_keys results).Pairwise (· < ·) :=
    List.Sorted.lt_of_le hsorted hnodup
  refine ⟨hbuild, hlt, ?_, ?_, ?_⟩
  · obtain ⟨r, hr⟩ := List.exists_mem_of_ne_nil results hne
    exact List.ne_nil_of_mem (lod_keys_mem.mpr (List.mem_map_of_mem TileResult.lod_level hr))
  · apply Finset.ext
    intro a
    simp only [List.mem_toFinset]
    exact lod_keys_mem
  · cases hres : results with
    | nil => exact absurd hres hne
    | cons r t =>
      subst hres
      unfold write_results_to_csv
      rw [hbuild]
      rfl

/-- Claim C4 (amended): a face whose UV footprint lies entirely at
`u >= 1` (past the right edge of the unit square) samples an empty cell
range: it contributes zero occupied cells and no texel-size entry.  A
DEGENERATE face with an empty (zero-area) UV footprint, however, is not
skipped: a face whose UVs all equal one point of `[0,1) x [0,1)` marks
exactly one grid cell and appends one texel-size entry, because the
sign-of-cross-product test accepts every point against a degenerate
triangle. -/
theorem claim_C4 (r w h : Nat) (grid : Grid) (sizes : List ℚ) (f g : Face) (u v : ℚ)
    (hne : f.uvs ≠ []) (hout : ∀ p ∈ f.uvs, 1 ≤ p.1)
    (hg : g.uvs = [(u, v), (u, v), (u, v)])
    (hu0 : 0 ≤ u) (hu1 : u < 1) (hv0 : 0 ≤ v) (hv1 : v < 1) (hr : 1 ≤ r) :
    process_face r w h (grid, sizes) f = .ok (grid, sizes)
    ∧ process_face r w h (initGrid r, sizes) g
        = .ok (pySet2 (initGrid r) (pytrunc (v * r)) (pytrunc (u * r)) 1,
            sizes ++ [g.area / ((1 : ℚ) * ((w : ℚ) / (r : ℚ)) * ((h : ℚ) / (r : ℚ)))])
    ∧ gridSum (pySet2 (initGrid r) (pytrunc (v * r)) (pytrunc (u * r)) 1) = 1 :=
  ⟨face_right_of_one_skipped r w h grid sizes f hne hout,
    (face_degenerate_marks_one r w h sizes g u v hg hu0 hu1 hv0 hv1 hr).1,
    (face_degenerate_marks_one r w h sizes g u v hg hu0 hu1 hv0 hv1 hr).2⟩

/-- Witness for claim C4 at concrete inputs. -/
theorem claim_C4_witness :
    process_face 2 4 4 ([[1, 1], [1, 1]], []) ⟨1, [(2, 0), (3, 5)]⟩ = .ok ([[1, 1], [1, 1]], [])
    ∧ process_face 2 4 4 (initGrid 2, []) ⟨7, [(1/2, 1/2), (1/2, 1/2), (1/2, 1/2)]⟩
        = .ok (pySet2 (initGrid 2) (pytrunc ((1/2 : ℚ) * (2 : Nat))) (pytrunc ((1/2 : ℚ) * (2 : Nat))) 1,
            [] ++ [(7 : ℚ) / ((1 : ℚ) * (((4 : Nat) : ℚ) / ((2 : Nat) : ℚ)) * (((4 : Nat) : ℚ) / ((2 : Nat) : ℚ)))])
    ∧ gridSum (pySet2 (initGrid 2) (pytrunc ((1/2 : ℚ) * (2 : Nat))) (pytrunc ((1/2 : ℚ) * (2 : Nat))) 1) = 1 :=
  claim_C4 2 4 4 [[1, 1], [1, 1]] [] ⟨1, [(2, 0), (3, 5)]⟩ ⟨7, [(1/2, 1/2), (1/2, 1/2), (1/2, 1/2)]⟩
    (1/2) (1/2) (by simp)
    (by
      intro p hp
      simp only [List.mem_cons, List.mem_singleton] at hp
      rcases hp with hp | hp | hp <;> first | (subst hp; norm_num) | cases hp)
    rfl (by norm_num) (by norm_num) (by norm_num) (by norm_num) (by norm_num)

/-- Claim C1 (code bug): the specification says a mesh with no active UV
layer or no bound texture yields an absent (`None`) result and is never
fatal to the per-tile computation; the code instead returns the 2-tuple
`[], 0` from `calculate_texel_sizes_and_utilization`, and the 3-variable
unpacking at `calculate_statistics` line 133 turns that into a fatal
`ValueError` — shown on a mesh without a UV layer and on a mesh without a
bound texture. -/
theorem claim_C1 :
    calculate_statistics ⟨false, some (4, 4), [], []⟩ = .error .valueError
    ∧ calculate_statistics ⟨true, none, [], []⟩ = .error .valueError := by
  constructor <;> decide

/-- Claim C3 counterexample: on an empty result list,
`write_results_to_csv` raises `IndexError` (at `results[0].keys()`,
line 295) instead of terminating non-fatally, so the claim as stated is
false. -/
theorem claim_C3_counterexample :
    write_results_to_csv [] = .error .indexError := by
  decide

/-- Claim C3 (amended): for an empty result list after filtering,
aggregation produces no summary rows, but report writing then raises
`IndexError` reading the CSV header keys from the first result — the
degenerate outcome is fatal rather than non-fatal. -/
theorem claim_C3 :
    build_summary ([] : List TileResult) = .ok []
    ∧ write_results_to_csv [] = .error .indexError := by
  constructor <;> decide

/-- Claim C4 counterexample: the degenerate face with all three UVs at
`(0,0)` (an empty, zero-area UV footprint) on a 4x4 texture marks one
occupied grid cell (utilization 1/4) and appends a texel-size entry, so
the claim that such a face marks zero cells and appends nothing is
false. -/
theorem claim_C4_counterexample :
    calculate_texel_sizes_and_utilization
        ⟨true, some (4, 4), [⟨0, [(0, 0), (0, 0), (0, 0)]⟩], []⟩
      = .ok (.triple [0] (1/4) 4) := by
  norm_num [calculate_texel_sizes_and_utilization, texel_faces_fold, gridRes, gridSum,
    process_face, visitCell, point_in_triangle_uv, pyGet, pyGet2, pySet2, pySet, normIdx,
    sign, initGrid, bind, Except.bind, pure, Except.pure, Int.toNat, intRange, pytrunc,
    List.foldlM, List.replicate]

/-- Claim C8 counterexample: the file `tiles/0/0/0/0.glb.glb` does NOT
match the `tiles/<level>/<x>/<y>/<z>.<ext>` convention as a whole path
(`spec_full_match` rejects it), yet the code's prefix-anchored `re.match`
accepts it and the scan emits a descriptor for it, so the claim that
every non-matching file is silently skipped is false. -/
theorem claim_C8_counterexample :
    spec_full_match "tiles/0/0/0/0.glb.glb" = none
    ∧ match_tiles_pat "tiles/0/0/0/0.glb.glb" = some (0, 0, 0, 0)
    ∧ process_grid_file none none "b" (⟨0, []⟩, none) "tiles/0/0/0/0.glb.glb"
        = (⟨1, [⟨0, 1, none, "tiles/0/0/0/0.glb.glb", none, "b", some (0, 0, 0, 0)⟩]⟩,
          some 1) := by
  refine ⟨by decide, by decide, by decide⟩

/-- Witness for claim C8 at concrete inputs. -/
theorem claim_C8_witness :
    process_grid_file none none "b" (⟨0, []⟩, none) "tiles/1/2/3/4.glb"
      = (⟨0 + 1, [] ++ [⟨1, 0 + 1, none, "tiles/1/2/3/4.glb", none, "b", some (1, 2, 3, 4)⟩]⟩,
        some (0 + 1))
    ∧ process_grid_file none none "b" (⟨5, []⟩, some 3) "foo.txt" = (⟨5, []⟩, some 3)
    ∧ match_tiles_pat "tiles/9/8/7/6.glb" = some (9, 8, 7, 6) :=
  claim_C8 none none "b" ⟨0, []⟩ ⟨5, []⟩ none (some 3) "tiles/1/2/3/4.glb" "foo.txt"
    "tiles/9/8/7/6.glb" 1 2 3 4 9 8 7 6 (by decide) (by decide) (by decide) (by decide)

/-- Witness for claim C10 at concrete inputs. -/
theorem claim_C10_witness :
    1 ≤ gridRes 4 4 ∧ ¬(gridRes 4 4 * gridRes 4 4 = 0)
    ∧ gridRes 1 1 = 0
    ∧ calculate_texel_sizes_and_utilization ⟨true, some (1, 1), [⟨5, [(0, 0), (1, 0), (0, 1)]⟩], []⟩
        = .error .zeroDivision
    ∧ calculate_texel_sizes_and_utilization ⟨true, some (4, 4), [], []⟩
        ≠ .error .zeroDivision :=
  claim_C10 4 4 ⟨true, some (1, 1), [⟨5, [(0, 0), (1, 0), (0, 1)]⟩], []⟩
    ⟨true, some (4, 4), [], []⟩ (by decide) rfl rfl
    (by intro f hf; simp only [List.mem_singleton] at hf; subst hf; simp)
    rfl rfl

/-- Witness for claim C9 at a concrete tileset. -/
theorem claim_C9_witness :
    (([⟨0, 1, none, "a.glb", some 16, "", none⟩,
        ⟨1, 2, some 1, "b.glb", some 8, "", none⟩] : List TileDesc).map TileDesc.tile_id).Nodup :=
  claim_C9
    ⟨fun p => if p = "t.json"
        then some (.node (some ⟨some "a.glb", none⟩) (some 16)
          [.node (some ⟨some "b.glb", none⟩) (some 8) []])
        else none,
      fun _ => []⟩
    3 0 "t.json"
    [⟨0, 1, none, "a.glb", some 16, "", none⟩, ⟨1, 2, some 1, "b.glb", some 8, "", none⟩]
    (by decide)

/-- Witness for claim C7 at a concrete tileset. -/
theorem claim_C7_witness :
    load_tileset
        ⟨fun p => if p = "t.json"
            then some (.node (some ⟨some "a.glb", none⟩) (some 16)
              [.node (some ⟨some "b.glb", none⟩) (some 8) []])
            else none,
          fun _ => []⟩ 3 0 "t.json"
      = .ok (sort_by_lod [⟨0, 1, none, "a.glb", some 16, "", none⟩,
          ⟨1, 2, some 1, "b.glb", some 8, "", none⟩])
    ∧ List.Sorted lodLE (sort_by_lod [⟨0, 1, none, "a.glb", some 16, "", none⟩,
        ⟨1, 2, some 1, "b.glb", some 8, "", none⟩])
    ∧ (sort_by_lod [⟨0, 1, none, "a.glb", some 16, "", none⟩,
          ⟨1, 2, some 1, "b.glb", some 8, "", none⟩]).filter (fun e => e.lod_level == 0)
        = ([⟨0, 1, none, "a.glb", some 16, "", none⟩,
            ⟨1, 2, some 1, "b.glb", some 8, "", none⟩] : List TileDesc).filter
            (fun e => e.lod_level == 0)
    ∧ (sort_by_lod [⟨0, 1, none, "a.glb", some 16, "", none⟩,
          ⟨1, 2, some 1, "b.glb", some 8, "", none⟩]).filter (fun e => e.lod_level == 1)
        = ([⟨0, 1, none, "a.glb", some 16, "", none⟩,
            ⟨1, 2, some 1, "b.glb", some 8, "", none⟩] : List TileDesc).filter
            (fun e => e.lod_level == 1) := by
  have h := claim_C7
    ⟨fun p => if p = "t.json"
        then some (.node (some ⟨some "a.glb", none⟩) (some 16)
          [.node (some ⟨some "b.glb", none⟩) (some 8) []])
        else none,
      fun _ => []⟩ 3 0 "t.json"
    (.node (some ⟨some "a.glb", none⟩) (some 16)
      [.node (some ⟨some "b.glb", none⟩) (some 8) []])
    ⟨2, [⟨0, 1, none, "a.glb", some 16, "", none⟩, ⟨1, 2, some 1, "b.glb", some 8, "", none⟩]⟩
    (by simp) (by decide)
  exact ⟨h.1, h.2.1, h.2.2 0, h.2.2 1⟩

/-- Witness for claim C5 at concrete inputs. -/
theorem claim_C5_witness :
    gridRes 4 4 = max 4 4 / 2
    ∧ GridWF (gridRes 4 4) [[1, 0], [0, 0]]
    ∧ gridSum (initGrid 2) ≤ gridSum [[1, 0], [0, 0]]
    ∧ ([0] : List ℚ) = (if gridSum [[1, 0], [0, 0]] = gridSum (initGrid 2) then ([] : List ℚ)
        else [] ++ [(0 : ℚ) / (((gridSum [[1, 0], [0, 0]] - gridSum (initGrid 2) : Nat) : ℚ)
          * (((4 : Nat) : ℚ) / ((gridRes 4 4 : Nat) : ℚ))
          * (((4 : Nat) : ℚ) / ((gridRes 4 4 : Nat) : ℚ)))])
    ∧ calculate_texel_sizes_and_utilization
        ⟨true, some (4, 4), [⟨0, [(0, 0), (0, 0), (0, 0)]⟩], []⟩
        = .ok (.triple [0] ((occupiedCount [[1, 0], [0, 0]] : ℚ)
            / ((gridRes 4 4 : ℚ) * (gridRes 4 4 : ℚ))) 4) :=
  claim_C5 4 4 (initGrid 2) [[1, 0], [0, 0]] [] [0] ⟨0, [(0, 0), (0, 0), (0, 0)]⟩
    ⟨true, some (4, 4), [⟨0, [(0, 0), (0, 0), (0, 0)]⟩], []⟩ [[1, 0], [0, 0]] [0]
    (by rw [gridRes_eq]; decide)
    (by
      norm_num [gridRes_eq, process_face, visitCell, point_in_triangle_uv, pyGet, pyGet2,
        pySet2, pySet, normIdx, sign, initGrid, bind, Except.bind, pure, Except.pure,
        Int.toNat, intRange, pytrunc, List.foldlM, List.replicate])
    rfl rfl
    (by
      norm_num [gridRes_eq, texel_faces_fold, process_face, visitCell, point_in_triangle_uv,
        pyGet, pyGet2, pySet2, pySet, normIdx, sign, initGrid, bind, Except.bind, pure,
        Except.pure, Int.toNat, intRange, pytrunc, List.foldlM, List.replicate])
    (by rw [gridRes_eq]; decide)

/-- Claim C6 counterexample: the claim quantifies over every non-empty
result list, but on a list whose single LOD group carries a numeric
`parent_id` on its first member and `None` on a later member, the
summary loop's `sum(r[key] for r in group)` adds an int and `None` and
raises `TypeError`: report writing emits no summary rows at all, so the
claim without a uniform-presence qualification is false. -/
theorem claim_C6_counterexample :
    build_summary [⟨1, 10, some 0, "a", some 5, 1, 2, 3, 1, 512, 4, 5, 6, 100⟩,
        ⟨1, 11, none, "b", some 7, 2, 3, 4, 1, 256, 5, 6, 7, 50⟩]
      = .error .typeError
    ∧ write_results_to_csv [⟨1, 10, some 0, "a", some 5, 1, 2, 3, 1, 512, 4, 5, 6, 100⟩,
        ⟨1, 11, none, "b", some 7, 2, 3, 4, 1, 256, 5, 6, 7, 50⟩]
      = .error .typeError := by
  constructor <;> decide

/-- Witness for claim C6 at a concrete result list. -/
theorem claim_C6_witness :
    build_summary [⟨1, 10, some 0, "a", some 5, 1, 2, 3, 1/2, 512, 4, 5, 6, 100⟩,
        ⟨0, 11, some 2, "b", some 7, 2, 3, 4, 1/4, 256, 5, 6, 7, 50⟩]
      = .ok ((lod_keys [⟨1, 10, some 0, "a", some 5, 1, 2, 3, 1/2, 512, 4, 5, 6, 100⟩,
          ⟨0, 11, some 2, "b", some 7, 2, 3, 4, 1/4, 256, 5, 6, 7, 50⟩]).map
          (spec_summary_row [⟨1, 10, some 0, "a", some 5, 1, 2, 3, 1/2, 512, 4, 5, 6, 100⟩,
            ⟨0, 11, some 2, "b", some 7, 2, 3, 4, 1/4, 256, 5, 6, 7, 50⟩]))
    ∧ (lod_keys [⟨1, 10, some 0, "a", some 5, 1, 2, 3, 1/2, 512, 4, 5, 6, 100⟩,
        ⟨0, 11, some 2, "b", some 7, 2, 3, 4, 1/4, 256, 5, 6, 7, 50⟩]).Pairwise (· < ·)
    ∧ lod_keys [⟨1, 10, some 0, "a", some 5, 1, 2, 3, 1/2, 512, 4, 5, 6, 100⟩,
        ⟨0, 11, some 2, "b", some 7, 2, 3, 4, 1/4, 256, 5, 6, 7, 50⟩] ≠ []
    ∧ (lod_keys [⟨1, 10, some 0, "a", some 5, 1, 2, 3, 1/2, 512, 4, 5, 6, 100⟩,
        ⟨0, 11, some 2, "b", some 7, 2, 3, 4, 1/4, 256, 5, 6, 7, 50⟩]).toFinset
      = (([⟨1, 10, some 0, "a", some 5, 1, 2, 3, 1/2, 512, 4, 5, 6, 100⟩,
          ⟨0, 11, some 2, "b", some 7, 2, 3, 4, 1/4, 256, 5, 6, 7, 50⟩] : List TileResult).map
          TileResult.lod_level).toFinset
    ∧ write_results_to_csv [⟨1, 10, some 0, "a", some 5, 1, 2, 3, 1/2, 512, 4, 5, 6, 100⟩,
        ⟨0, 11, some 2, "b", some 7, 2, 3, 4, 1/4, 256, 5, 6, 7, 50⟩]
      = .ok ⟨(lod_keys [⟨1, 10, some 0, "a", some 5, 1, 2, 3, 1/2, 512, 4, 5, 6, 100⟩,
            ⟨0, 11, some 2, "b", some 7, 2, 3, 4, 1/4, 256, 5, 6, 7, 50⟩]).map
            (spec_summary_row [⟨1, 10, some 0, "a", some 5, 1, 2, 3, 1/2, 512, 4, 5, 6, 100⟩,
              ⟨0, 11, some 2, "b", some 7, 2, 3, 4, 1/4, 256, 5, 6, 7, 50⟩]),
          [⟨1, 10, some 0, "a", some 5, 1, 2, 3, 1/2, 512, 4, 5, 6, 100⟩,
            ⟨0, 11, some 2, "b", some 7, 2, 3, 4, 1/4, 256, 5, 6, 7, 50⟩]⟩ :=
  claim_C6 [⟨1, 10, some 0, "a", some 5, 1, 2, 3, 1/2, 512, 4, 5, 6, 100⟩,
      ⟨0, 11, some 2, "b", some 7, 2, 3, 4, 1/4, 256, 5, 6, 7, 50⟩]
    (by simp) (by decide) (by decide)
